import Mathlib

/-!
Verification of the event-matching and execution engine of the whatsapp_mcp
repository (cmd/whatsapp_mcp/event_matcher.go, the action executor, the
SQLite-backed handler store, and the register_handler operation), in a
shallow embedding.

Modelling conventions, used throughout:
* Go `map[string]interface{}` values are embedded as association lists
  `GoMap = List (String × GoVal)`, where `GoVal` mirrors the dynamic values
  the program stores in them.  A Go type assertion `v.(T)` is a pattern
  match on the corresponding `GoVal` constructor; `vint` and `vint64` are
  kept distinct because the source distinguishes `.(int)` from `.(int64)`.
* Clock readings (`time.Now()`) are threaded explicitly as a `now : Nat`
  argument, in Unix seconds.  An RFC3339-formatted timestamp string is
  represented by the instant it denotes (`vtimestr`): `Format` is
  `vtimestr` and `time.Parse` succeeds exactly on `vtimestr` values,
  which encodes that the parse of a formatted time is the identity.
* The regular-expression engine (`regexp.MatchString`) is an external
  library; it is a parameter `re : String → String → Option Bool`, where
  `none` stands for a compile error of the pattern.
-/

inductive GoVal where
  | vnil : GoVal
  | vbool : Bool → GoVal
  | vint : Int → GoVal
  | vint64 : Int → GoVal
  | vfloat : Int → GoVal
  | vstr : String → GoVal
  | vtimestr : Nat → GoVal
  | vlist : List GoVal → GoVal
  | vmap : List (String × GoVal) → GoVal

abbrev GoMap := List (String × GoVal)

/-- Reading key `k` of a Go map: the first binding wins.  Writing a key is
modelled by prepending a binding (`mset`), which shadows older ones. -/
def mlookup (m : GoMap) (k : String) : Option GoVal := m.lookup k

def mset (m : GoMap) (k : String) (v : GoVal) : GoMap := (k, v) :: m

def msetOpt (m : GoMap) (k : String) : Option GoVal → GoMap
  | some v => (k, v) :: m
  | none => m

/-- Go `v.(string)` on an optional map entry. -/
def asStr : Option GoVal → Option String
  | some (.vstr s) => some s
  | _ => none

/-- Go `v.(bool)`. -/
def asBool : Option GoVal → Option Bool
  | some (.vbool b) => some b
  | _ => none

/-- Go `v.(int)`. -/
def asInt : Option GoVal → Option Int
  | some (.vint n) => some n
  | _ => none

/-- Go `v.(int64)`. -/
def asInt64 : Option GoVal → Option Int
  | some (.vint64 n) => some n
  | _ => none

/-- Go `v.([]interface\x7b\x7d)`. -/
def asList : Option GoVal → Option (List GoVal)
  | some (.vlist l) => some l
  | _ => none

/-- Go `v.(map[string]interface\x7b\x7d)`. -/
def asMap : Option GoVal → Option GoMap
  | some (.vmap m) => some m
  | _ => none

/-- Go `v.(string)` followed by a successful `time.Parse(time.RFC3339, ·)`:
succeeds exactly on values that denote a formatted timestamp. -/
def asTimeStr : Option GoVal → Option Nat
  | some (.vtimestr t) => some t
  | _ => none

/-- Go `s, _ := m[k].(string)` (zero value on absence or type mismatch). -/
def getStrD (m : GoMap) (k : String) : String := (asStr (mlookup m k)).getD ""

/-- Go `b, _ := m[k].(bool)`. -/
def getBoolD (m : GoMap) (k : String) : Bool := (asBool (mlookup m k)).getD false

/-- Go `strings.Contains` on the character sequences of the two strings. -/
def goContains (hay needle : List Char) : Bool :=
  match hay with
  | [] => needle.isEmpty
  | _ :: t => needle.isPrefixOf hay || goContains t needle

def goStrContains (s sub : String) : Bool := goContains s.data sub.data

/-- Go `strings.ToLower`, as a per-character fold (the scenarios' strings
are ASCII, where this agrees with the library's Unicode fold). -/
def goToLower (s : String) : String := String.mk (s.data.map Char.toLower)

/-- event_matcher.go `containsString`: membership of `str` among the string
elements of a `[]interface\x7b\x7d` slice (non-string elements are skipped). -/
def containsString (slice : List GoVal) (str : String) : Bool :=
  slice.any (fun item =>
    match item with
    | .vstr itemStr => itemStr == str
    | _ => false)

/-- event_matcher.go `matchesFilter`: does `event` satisfy the filter stored
under key "event_filter" of `handler`?  Each clause mirrors one block of the
source; the source's early `return false` chain is the `&&` chain here.
`re` is the external regular-expression engine. -/
def matchesFilter (re : String → String → Option Bool)
    (handler event : GoMap) : Bool :=
  match asMap (mlookup handler "event_filter") with
  | none => false
  | some filter =>
    -- Check event_types
    (match asList (filter.lookup "event_types") with
     | some eventTypes =>
       if eventTypes.length > 0 then
         containsString eventTypes (getStrD event "event_type")
       else true
     | none => true) &&
    -- Check is_from_me
    (match asBool (filter.lookup "is_from_me") with
     | some isFromMe => isFromMe == getBoolD event "is_from_me"
     | none => true) &&
    -- Check message_types
    (match asList (filter.lookup "message_types") with
     | some messageTypes =>
       if messageTypes.length > 0 then
         containsString messageTypes (getStrD event "message_type")
       else true
     | none => true) &&
    -- Check from_jids
    (match asList (filter.lookup "from_jids") with
     | some fromJIDs =>
       if fromJIDs.length > 0 then
         containsString fromJIDs (getStrD event "from")
       else true
     | none => true) &&
    -- Check chat_jids
    (match asList (filter.lookup "chat_jids") with
     | some chatJIDs =>
       if chatJIDs.length > 0 then
         containsString chatJIDs (getStrD event "chat")
       else true
     | none => true) &&
    -- Check is_group
    (match asBool (filter.lookup "is_group") with
     | some isGroup => isGroup == getBoolD event "is_group"
     | none => true) &&
    -- Check group_jids
    (match asList (filter.lookup "group_jids") with
     | some groupJIDs =>
       if groupJIDs.length > 0 then
         getBoolD event "is_group" && containsString groupJIDs (getStrD event "chat")
       else true
     | none => true) &&
    -- Check has_media
    (match asBool (filter.lookup "has_media") with
     | some hasMedia =>
       let eventHasMedia :=
         match asStr (mlookup event "media_type") with
         | some mediaType => mediaType != ""
         | none => false
       hasMedia == eventHasMedia
     | none => true) &&
    -- Check has_quoted_message
    (match asBool (filter.lookup "has_quoted_message") with
     | some hasQuoted =>
       let eventHasQuoted :=
         match asStr (mlookup event "quoted_message_id") with
         | some quotedID => quotedID != ""
         | none => false
       hasQuoted == eventHasQuoted
     | none => true) &&
    -- Check text_contains
    (match asList (filter.lookup "text_contains") with
     | some textContains =>
       if textContains.length > 0 then
         let textContent := goToLower (getStrD event "text_content")
         textContains.any (fun keyword =>
           match keyword with
           | .vstr keywordStr => goStrContains textContent (goToLower keywordStr)
           | _ => false)
       else true
     | none => true) &&
    -- Check text_regex
    (match asStr (filter.lookup "text_regex") with
     | some textRegex =>
       if textRegex != "" then
         match re textRegex (getStrD event "text_content") with
         | some true => true
         | _ => false
       else true
     | none => true)

/-!
Rate limiting (event_matcher.go `RateLimiter`, `checkRateLimits`,
`RecordExecution`, `checkCooldown`).

A Go `map[int64]int` counter map is modelled as a total function with
default 0, which is how the source only ever reads it; deleting a key is
observationally setting it to 0.  The removal of a sender entry whose
count map has become empty (`len(counts) == 0`) is not observable through
count reads and is subsumed by this model.  The two-level
`rateLimits map[string]*RateLimiter` and `perSenderCounts` maps are kept
as association lists so that the creation of missing entries — a real
state change done by both `checkRateLimits` and `RecordExecution` — stays
visible.
-/

structure RateLimiter where
  perMinuteCounts : Nat → Nat
  perHourCounts : Nat → Nat
  perSenderCounts : List (String × (Nat → Nat))
  lastExecution : Option Nat

abbrev RateLimits := List (String × RateLimiter)

def emptyRateLimiter : RateLimiter :=
  { perMinuteCounts := fun _ => 0
    perHourCounts := fun _ => 0
    perSenderCounts := []
    lastExecution := none }

/-- Replace the binding of `k` (or append it): a Go map write. -/
def updateAssoc {β : Type} : List (String × β) → String → β → List (String × β)
  | [], k, v => [(k, v)]
  | (k0, v0) :: rest, k, v =>
    if k0 == k then (k, v) :: rest else (k0, v0) :: updateAssoc rest k v

/-- The `if !exists` creation of a handler's limiter, shared by
`checkRateLimits` and `RecordExecution`. -/
def ensureLimiter (rl : RateLimits) (handlerID : String) : RateLimits :=
  match rl.lookup handlerID with
  | some _ => rl
  | none => updateAssoc rl handlerID emptyRateLimiter

def getLimiter (rl : RateLimits) (handlerID : String) : RateLimiter :=
  (rl.lookup handlerID).getD emptyRateLimiter

def senderCountsOf (limiter : RateLimiter) (jid : String) : Nat → Nat :=
  (limiter.perSenderCounts.lookup jid).getD (fun _ => 0)

/-- The `if limiter.perSenderCounts[fromJID] == nil { ... = make(...) }`
creation of a sender's (empty) count map. -/
def ensureSenderCounts (limiter : RateLimiter) (jid : String) : RateLimiter :=
  match limiter.perSenderCounts.lookup jid with
  | some _ => limiter
  | none =>
    { limiter with
        perSenderCounts := updateAssoc limiter.perSenderCounts jid (fun _ => 0) }

/-- event_matcher.go `checkRateLimits`: pure limit check, except that it
creates the handler's limiter and the sender's (empty) count map when
missing.  Returns (allowed?, updated rate-limit state). -/
def checkRateLimits (handler event : GoMap) (rl : RateLimits) (now : Nat) :
    Bool × RateLimits :=
  let handlerID := getStrD handler "handler_id"
  let rl := ensureLimiter rl handlerID
  let limiter := getLimiter rl handlerID
  let currentMinute := now / 60
  let currentHour := now / 3600
  -- Check per-minute limit
  let minuteBlocked : Bool :=
    match asInt64 (mlookup handler "max_executions_per_minute") with
    | some maxPerMin =>
      decide (maxPerMin > 0 ∧ (limiter.perMinuteCounts currentMinute : Int) ≥ maxPerMin)
    | none => false
  if minuteBlocked then (false, rl)
  else
    -- Check per-hour limit
    let hourBlocked : Bool :=
      match asInt64 (mlookup handler "max_executions_per_hour") with
      | some maxPerHour =>
        decide (maxPerHour > 0 ∧ (limiter.perHourCounts currentHour : Int) ≥ maxPerHour)
      | none => false
    if hourBlocked then (false, rl)
    else
      -- Check per-sender-per-hour limit
      match asInt64 (mlookup handler "max_executions_per_sender_per_hour") with
      | some maxPerSenderHour =>
        if maxPerSenderHour > 0 then
          let fromJID := getStrD event "from"
          if fromJID != "" then
            let limiter2 := ensureSenderCounts limiter fromJID
            let rl2 := updateAssoc rl handlerID limiter2
            if (senderCountsOf limiter2 fromJID currentHour : Int) ≥ maxPerSenderHour then
              (false, rl2)
            else (true, rl2)
          else (true, rl)
        else (true, rl)
      | none => (true, rl)

/-- Increment of a counter bucket (`counts[key]++`). -/
def bumpCount (counts : Nat → Nat) (key : Nat) : Nat → Nat :=
  fun k => if k == key then counts key + 1 else counts k

/-- Zeroing of all buckets strictly below `oldest` (the cleanup loop's
deletions, observationally). -/
def dropOldCounts (counts : Nat → Nat) (oldest : Nat) : Nat → Nat :=
  fun k => if k < oldest then 0 else counts k

/-- event_matcher.go `RecordExecution`: record one execution for rate
limiting, then clean up buckets older than two hours. -/
def RecordExecution (rl : RateLimits) (handlerID : String) (event : GoMap)
    (now : Nat) : RateLimits :=
  let rl := ensureLimiter rl handlerID
  let limiter := getLimiter rl handlerID
  let currentMinute := now / 60
  let currentHour := now / 3600
  -- Increment counters
  let limiter :=
    { limiter with
        perMinuteCounts := bumpCount limiter.perMinuteCounts currentMinute
        perHourCounts := bumpCount limiter.perHourCounts currentHour }
  let fromJID := getStrD event "from"
  let limiter :=
    if fromJID != "" then
      { limiter with
          perSenderCounts :=
            updateAssoc limiter.perSenderCounts fromJID
              (bumpCount (senderCountsOf limiter fromJID) currentHour) }
    else limiter
  let limiter := { limiter with lastExecution := some now }
  -- Cleanup old entries (older than 2 hours); Nat subtraction truncates at
  -- 0, which deletes the same (non-negative) bucket keys as the source's
  -- int64 arithmetic.
  let oldestMinute := (now - 7200) / 60
  let oldestHour := (now - 7200) / 3600
  let limiter :=
    { limiter with
        perMinuteCounts := dropOldCounts limiter.perMinuteCounts oldestMinute
        perHourCounts := dropOldCounts limiter.perHourCounts oldestHour
        perSenderCounts :=
          limiter.perSenderCounts.map
            (fun p => (p.1, dropOldCounts p.2 oldestHour)) }
  updateAssoc rl handlerID limiter

/-- event_matcher.go `checkCooldown`: has the cooldown elapsed since the
limiter's last recorded execution?  (`lastExecution = none` is the zero
`time.Time`.) -/
def checkCooldown (handler : GoMap) (rl : RateLimits) (now : Nat) : Bool :=
  match asInt64 (mlookup handler "cooldown_seconds") with
  | none => true
  | some cooldownSeconds =>
    if cooldownSeconds ≤ 0 then true
    else
      let handlerID := getStrD handler "handler_id"
      match rl.lookup handlerID with
      | none => true
      | some limiter =>
        match limiter.lastExecution with
        | none => true
        | some lastExec => decide (((now : Int) - lastExec) ≥ cooldownSeconds)

/-- event_matcher.go `isCircuitBreakerOpen`: the handler is skipped when
its breaker is enabled, its state is "open", its last_error_time parses,
and the reset window has not yet elapsed. -/
def isCircuitBreakerOpen (handler : GoMap) (now : Nat) : Bool :=
  match asBool (mlookup handler "circuit_breaker_enabled") with
  | none => false
  | some cbEnabled =>
    if !cbEnabled then false
    else
      let cbState := getStrD handler "circuit_breaker_state"
      if cbState != "open" then false
      else
        match asTimeStr (mlookup handler "last_error_time") with
        | none => false
        | some lastError =>
          let resetSeconds :=
            (asInt64 (mlookup handler "circuit_breaker_reset_seconds")).getD 300
          if ((now : Int) - lastError) ≥ resetSeconds then false
          else true

/-- event_matcher.go `sortHandlersByPriority`, priority read: `.(int)`
with zero value 0. -/
def getPriority (handler : GoMap) : Int := (asInt (mlookup handler "priority")).getD 0

/-- One full adjacent-swap sweep of the source's inner loop, swapping
`handlers[j], handlers[j+1]` whenever `priority j < priority j+1`:
`bubbleAux a l` sweeps with `a` as the element currently at position j. -/
def bubbleAux (a : GoMap) : List GoMap → List GoMap
  | [] => [a]
  | b :: rest =>
    if getPriority a < getPriority b then b :: bubbleAux a rest
    else a :: bubbleAux b rest

def bubblePass : List GoMap → List GoMap
  | [] => []
  | a :: rest => bubbleAux a rest

/-- event_matcher.go `sortHandlersByPriority` (bubble sort, descending).
The source's outer loop runs `n-1` inner sweeps whose bound `n-i-1` only
omits comparisons among elements a previous sweep has already placed in
final position; `n-1` full sweeps perform the identical swaps. -/
def sortHandlersByPriority (handlers : List GoMap) : List GoMap :=
  bubblePass^[handlers.length - 1] handlers

/-- The filtering loop of `MatchEvent`, threading the rate-limit state the
`checkRateLimits` calls may extend. -/
def matchLoop (re : String → String → Option Bool) (event : GoMap) (now : Nat) :
    List GoMap → RateLimits → List GoMap × RateLimits
  | [], rl => ([], rl)
  | handler :: rest, rl =>
    -- Check if handler is enabled
    if asBool (mlookup handler "enabled") ≠ some true then
      matchLoop re event now rest rl
    else
      -- Check circuit breaker
      if isCircuitBreakerOpen handler now then matchLoop re event now rest rl
      else
        -- Check rate limits
        let res := checkRateLimits handler event rl now
        if !res.1 then matchLoop re event now rest res.2
        else
          -- Check cooldown
          if !checkCooldown handler res.2 now then matchLoop re event now rest res.2
          else
            -- Check event filter
            if matchesFilter re handler event then
              let res2 := matchLoop re event now rest res.2
              (handler :: res2.1, res2.2)
            else matchLoop re event now rest res.2

/-- event_matcher.go `MatchEvent`: all handlers of the registry snapshot
that pass every guard, sorted by priority (highest first). -/
def MatchEvent (re : String → String → Option Bool) (registry : List GoMap)
    (rl : RateLimits) (event : GoMap) (now : Nat) : List GoMap × RateLimits :=
  let res := matchLoop re event now registry rl
  (sortHandlersByPriority res.1, res.2)

/-!
The SQLite-backed handler store (unnamed database file: `SaveHandler`,
`GetHandler`, `ListHandlers`, `UpdateHandlerStats`, `LogHandlerExecution`)
and the breaker write path (`UpdateCircuitBreaker`).

A row of the `event_handlers` table carries exactly the schema's columns;
nullable columns are `Option`.  `event_filter` and `action` are stored as
JSON text; the JSON encode/decode round trip on the stored dynamic value
is the identity, so the row holds the `GoVal` itself.  `INSERT OR REPLACE`
deletes the conflicting row and inserts a fresh one, so every column the
statement does not name reverts to its schema default — this is modelled
literally in `dbSaveHandler`.

One deliberate simplification: the `priority` column is kept as `Int`,
with a non-numeric in-memory priority stored as 0 rather than SQL NULL.  A
NULL priority would make `GetHandler`'s `Scan` into a Go `int` fail and
the handler would be skipped on load; no modelled flow can produce one
(registration always defaults `priority`, and every other save starts from
a `GetHandler` result).
-/

structure HandlerRow where
  handler_id : String
  description : Option String
  event_filter : GoVal
  action : GoVal
  enabled : Int
  priority : Int
  max_executions_per_minute : Option Int
  max_executions_per_hour : Option Int
  max_executions_per_sender_per_hour : Option Int
  cooldown_seconds : Option Int
  timeout_seconds : Option Int
  circuit_breaker_enabled : Int
  circuit_breaker_threshold : Option Int
  circuit_breaker_reset_seconds : Option Int
  created_at : Nat
  updated_at : Nat
  execution_count : Int
  last_executed : Option Nat
  last_error : Option String
  last_error_time : Option Nat
  total_errors : Int
  circuit_breaker_state : Option String

/-- A row of the `handler_executions` table. -/
structure ExecRow where
  handler_id : String
  event_id : String
  event_type : String
  from_jid : String
  started_at : Nat
  completed_at : Nat
  duration_ms : Int
  success : Int
  error : Option String
  actions_executed : Option Int

structure Database where
  handlers : List (String × HandlerRow)
  executions : List ExecRow

/-- database `GetHandler`, row-to-map conversion: the map literal followed
by the conditional insertions, in source order. -/
def rowToHandlerMap (row : HandlerRow) : GoMap :=
  let h : GoMap := [
    ("handler_id", .vstr row.handler_id),
    ("event_filter", row.event_filter),
    ("action", row.action),
    ("enabled", .vbool (row.enabled == 1)),
    ("priority", .vint row.priority),
    ("created_at", .vtimestr row.created_at),
    ("updated_at", .vtimestr row.updated_at),
    ("execution_count", .vint row.execution_count),
    ("total_errors", .vint row.total_errors),
    ("circuit_breaker_state", .vstr "closed")]
  let h := msetOpt h "description" (row.description.map .vstr)
  let h := msetOpt h "max_executions_per_minute"
    (row.max_executions_per_minute.map .vint64)
  let h := msetOpt h "max_executions_per_hour"
    (row.max_executions_per_hour.map .vint64)
  let h := msetOpt h "max_executions_per_sender_per_hour"
    (row.max_executions_per_sender_per_hour.map .vint64)
  let h := msetOpt h "cooldown_seconds" (row.cooldown_seconds.map .vint64)
  let h := msetOpt h "timeout_seconds" (row.timeout_seconds.map .vint64)
  let h :=
    if row.circuit_breaker_enabled == 1 then
      let h := mset h "circuit_breaker_enabled" (.vbool true)
      let h := msetOpt h "circuit_breaker_threshold"
        (row.circuit_breaker_threshold.map .vint64)
      msetOpt h "circuit_breaker_reset_seconds"
        (row.circuit_breaker_reset_seconds.map .vint64)
    else h
  let h := msetOpt h "last_executed" (row.last_executed.map .vtimestr)
  let h := msetOpt h "last_error" (row.last_error.map .vstr)
  let h := msetOpt h "last_error_time" (row.last_error_time.map .vtimestr)
  msetOpt h "circuit_breaker_state" (row.circuit_breaker_state.map .vstr)

/-- database `GetHandler`: `none` is `sql.ErrNoRows`. -/
def dbGetHandler (db : Database) (handlerID : String) : Option GoMap :=
  (db.handlers.lookup handlerID).map rowToHandlerMap

/-- Numeric SQL parameter: the raw `interface\x7b\x7d` value the source
passes to `Exec` for an INTEGER column; non-numeric values bind as NULL. -/
def asNum : Option GoVal → Option Int
  | some (.vint n) => some n
  | some (.vint64 n) => some n
  | some (.vfloat n) => some n
  | _ => none

/-- database `SaveHandler`: `INSERT OR REPLACE` of the named columns with
the source's default handling for the breaker fields; every unnamed
column reverts to its schema default (`created_at` CURRENT_TIMESTAMP,
`execution_count` 0, `last_executed` NULL, `last_error` NULL,
`last_error_time` NULL, `total_errors` 0, `circuit_breaker_state`
'closed'). -/
def dbSaveHandler (db : Database) (handler : GoMap) (now : Nat) : Database :=
  let enabled : Int :=
    match asBool (mlookup handler "enabled") with
    | some e => if !e then 0 else 1
    | none => 1
  let cbEnabled : Int :=
    match mlookup handler "circuit_breaker_enabled" with
    | some (.vbool cb) => if !cb then 0 else 1
    | some (.vint cb) => cb
    | some (.vfloat cb) => if cb == 0 then 0 else 1
    | _ => 1
  let cbThreshold : Int :=
    match mlookup handler "circuit_breaker_threshold" with
    | some (.vint t) => t
    | some (.vint64 t) => t
    | some (.vfloat t) => t
    | _ => 5
  let cbReset : Int :=
    match mlookup handler "circuit_breaker_reset_seconds" with
    | some (.vint r) => r
    | some (.vint64 r) => r
    | some (.vfloat r) => r
    | _ => 300
  let handlerID := getStrD handler "handler_id"
  let row : HandlerRow :=
    { handler_id := handlerID
      description := asStr (mlookup handler "description")
      event_filter := (mlookup handler "event_filter").getD .vnil
      action := (mlookup handler "action").getD .vnil
      enabled := enabled
      priority := (asNum (mlookup handler "priority")).getD 0
      max_executions_per_minute := asNum (mlookup handler "max_executions_per_minute")
      max_executions_per_hour := asNum (mlookup handler "max_executions_per_hour")
      max_executions_per_sender_per_hour :=
        asNum (mlookup handler "max_executions_per_sender_per_hour")
      cooldown_seconds := asNum (mlookup handler "cooldown_seconds")
      timeout_seconds := asNum (mlookup handler "timeout_seconds")
      circuit_breaker_enabled := cbEnabled
      circuit_breaker_threshold := some cbThreshold
      circuit_breaker_reset_seconds := some cbReset
      created_at := now
      updated_at := now
      execution_count := 0
      last_executed := none
      last_error := none
      last_error_time := none
      total_errors := 0
      circuit_breaker_state := some "closed" }
  { db with handlers := updateAssoc db.handlers handlerID row }

/-- database `UpdateHandlerStats`: the two UPDATE statements (success and
failure); a missing row leaves the table unchanged. -/
def dbUpdateHandlerStats (db : Database) (handlerID : String) (success : Bool)
    (errorMsg : String) (now : Nat) : Database :=
  match db.handlers.lookup handlerID with
  | none => db
  | some row =>
    let row2 :=
      if success then
        { row with
            execution_count := row.execution_count + 1
            last_executed := some now
            updated_at := now }
      else
        { row with
            execution_count := row.execution_count + 1
            total_errors := row.total_errors + 1
            last_executed := some now
            last_error := some errorMsg
            last_error_time := some now
            updated_at := now }
    { db with handlers := updateAssoc db.handlers handlerID row2 }

/-- database `ListHandlers` summary map for one row. -/
def rowToSummaryMap (row : HandlerRow) : GoMap :=
  let h : GoMap := [
    ("handler_id", .vstr row.handler_id),
    ("enabled", .vbool (row.enabled == 1)),
    ("priority", .vint row.priority),
    ("execution_count", .vint row.execution_count)]
  let h := msetOpt h "description" (row.description.map .vstr)
  let h := msetOpt h "last_executed" (row.last_executed.map .vtimestr)
  msetOpt h "circuit_breaker_state" (row.circuit_breaker_state.map .vstr)

/-- The `ORDER BY priority DESC, handler_id` key of `ListHandlers`. -/
def rowOrder (a b : HandlerRow) : Prop :=
  b.priority < a.priority ∨ (a.priority = b.priority ∧ a.handler_id ≤ b.handler_id)

/-- Kernel-computable lexicographic comparison on character sequences:
the BINARY collation order SQLite applies to the `handler_id` column
(bytewise on UTF-8, equivalently codepoint-wise). -/
def strLtb : List Char → List Char → Bool
  | [], [] => false
  | [], _ :: _ => true
  | _ :: _, [] => false
  | c :: as, d :: bs =>
    if c < d then true
    else if d < c then false
    else strLtb as bs

theorem strLtb_iff_lex (a b : List Char) :
    strLtb a b = true ↔ List.Lex (fun x y => x < y) a b := by
  induction a generalizing b with
  | nil =>
    cases b with
    | nil =>
      refine ⟨fun h => by simp [strLtb] at h, fun h => by cases h⟩
    | cons d bs =>
      refine ⟨fun _ => List.Lex.nil, fun _ => rfl⟩
  | cons c as ih =>
    cases b with
    | nil =>
      refine ⟨fun h => by simp [strLtb] at h, fun h => by cases h⟩
    | cons d bs =>
      show (if c < d then true else if d < c then false else strLtb as bs) = true ↔ _
      rcases lt_trichotomy c d with h | h | h
      · rw [if_pos h]
        exact ⟨fun _ => List.Lex.rel h, fun _ => rfl⟩
      · subst h
        rw [if_neg (lt_irrefl c), if_neg (lt_irrefl c)]
        constructor
        · intro hs
          exact List.Lex.cons ((ih bs).mp hs)
        · intro hL
          cases hL with
          | cons h2 => exact (ih bs).mpr h2
          | rel h2 => exact absurd h2 (lt_irrefl c)
      · rw [if_neg (lt_asymm h), if_pos h]
        refine ⟨fun hf => by simp at hf, fun hL => ?_⟩
        cases hL with
        | cons h2 => exact absurd h (lt_irrefl _)
        | rel h2 => exact absurd h2 (lt_asymm h)

theorem strLtb_iff_string_lt (s t : String) :
    strLtb s.data t.data = true ↔ s < t := by
  rw [String.lt_iff_toList_lt]
  exact strLtb_iff_lex s.data t.data

instance : DecidableRel rowOrder := fun a b =>
  decidable_of_iff
    (b.priority < a.priority ∨
      (a.priority = b.priority ∧
        strLtb b.handler_id.data a.handler_id.data = false)) (by
    unfold rowOrder
    apply or_congr Iff.rfl
    apply and_congr Iff.rfl
    rw [Bool.eq_false_iff]
    rw [show (strLtb b.handler_id.data a.handler_id.data ≠ true)
        = ¬ (strLtb b.handler_id.data a.handler_id.data = true) from rfl]
    rw [not_iff_not.mpr (strLtb_iff_string_lt b.handler_id a.handler_id)]
    exact Iff.rfl)

instance : IsTotal HandlerRow rowOrder where
  total a b := by
    unfold rowOrder
    rcases lt_trichotomy a.priority b.priority with h | h | h
    · exact Or.inr (Or.inl h)
    · rcases le_total a.handler_id b.handler_id with h2 | h2
      · exact Or.inl (Or.inr ⟨h, h2⟩)
      · exact Or.inr (Or.inr ⟨h.symm, h2⟩)
    · exact Or.inl (Or.inl h)

instance : IsTrans HandlerRow rowOrder where
  trans a b c hab hbc := by
    unfold rowOrder at *
    rcases hab with h1 | ⟨h1, h1b⟩ <;> rcases hbc with h2 | ⟨h2, h2b⟩
    · exact Or.inl (h2.trans h1)
    · exact Or.inl (h2 ▸ h1)
    · exact Or.inl (h1 ▸ h2)
    · exact Or.inr ⟨h1.trans h2, h1b.trans h2b⟩

/-- database `ListHandlers`: rows (optionally `WHERE enabled = 1`) sorted
by `ORDER BY priority DESC, handler_id`, rendered as summary maps.  The
SQL sort is modelled by insertion sort under `rowOrder`; `handler_id` is
the primary key, so the key is strict on distinct rows and the result
order is uniquely determined. -/
def dbListHandlers (db : Database) (enabledOnly : Bool) : List GoMap :=
  let rows := db.handlers.map Prod.snd
  let rows := if enabledOnly then rows.filter (fun r => r.enabled == 1) else rows
  (rows.insertionSort rowOrder).map rowToSummaryMap

/-- event_matcher.go `LoadHandlers`: the full-detail registry snapshot;
handlers whose `GetHandler` fails are skipped. -/
def LoadHandlers (db : Database) : List GoMap :=
  (dbListHandlers db true).filterMap
    (fun h => dbGetHandler db (getStrD h "handler_id"))

/-- event_matcher.go `UpdateCircuitBreaker`: reload the handler from the
store, then persist `closed` on success, or `open` when the recorded
`total_errors` has already reached the threshold. -/
def UpdateCircuitBreaker (db : Database) (handlerID : String) (success : Bool)
    (now : Nat) : Database :=
  match dbGetHandler db handlerID with
  | none => db
  | some handler =>
    match asBool (mlookup handler "circuit_breaker_enabled") with
    | none => db
    | some cbEnabled =>
      if !cbEnabled then db
      else if success then
        -- Reset circuit breaker on success
        dbSaveHandler db (mset handler "circuit_breaker_state" (.vstr "closed")) now
      else
        let totalErrors := (asInt (mlookup handler "total_errors")).getD 0
        let threshold := (asInt64 (mlookup handler "circuit_breaker_threshold")).getD 5
        if totalErrors ≥ threshold then
          dbSaveHandler db (mset handler "circuit_breaker_state" (.vstr "open")) now
        else db

/-!
The action executor (second half of event_matcher.go source file:
`substituteValue`, `executeReturnedActions`, `executeDirectActions`,
`executeHandler`, the logging helpers).

External collaborators are oracles threaded as parameters:
* `wm : String → GoMap → Bool` is `CallWhatsmeowMethod` (true means the
  call returned a non-nil successful result); every call made is appended
  to the world's `calls` trace.
* `py : GoMap → GoMap → Int → Except String GoMap` is
  `executePythonAction` (code assembly, the MCP round trip and the JSON
  decoding of the reply happen outside the process boundary).
* `dl : GoMap → Except String String` is the media download performed
  through the WhatsApp client and the filesystem.
-/

/-- event_matcher.go `substituteValue` whole-value test:
`len(v) > 7 && v[:7] == "\x7bevent." && v[len(v)-1:] == "\x7d"`, on the
string's character sequence (Go slices bytes; the prefix and suffix
compared against are ASCII, so the byte test and the character test
agree on UTF-8 input). -/
def isEventRefString (v : String) : Bool :=
  v.data.length > 7 && (v.data.take 7 == "\x7bevent.".data)
    && (v.data.getLast? == some '\x7d')

/-- event_matcher.go `substituteValue` field extraction `v[7 : len(v)-1]`. -/
def eventRefField (v : String) : String := String.mk ((v.data.drop 7).dropLast)

mutual
/-- event_matcher.go `substituteValue`: replace a whole-value
"\x7bevent.field\x7d" string by the event-context value, recursing into
maps and lists; everything else is returned unchanged. -/
def substituteValue : GoVal → GoMap → GoVal
  | .vstr v, eventData =>
    if isEventRefString v then
      match eventData.lookup (eventRefField v) with
      | some fieldValue => fieldValue
      | none => .vstr v
    else .vstr v
  | .vmap kvs, eventData => .vmap (substMapEntries kvs eventData)
  | .vlist xs, eventData => .vlist (substListEntries xs eventData)
  | other, _ => other

def substMapEntries : List (String × GoVal) → GoMap → List (String × GoVal)
  | [], _ => []
  | (k, v) :: rest, eventData =>
    (k, substituteValue v eventData) :: substMapEntries rest eventData

def substListEntries : List GoVal → GoMap → List GoVal
  | [], _ => []
  | v :: rest, eventData =>
    substituteValue v eventData :: substListEntries rest eventData
end

/-- event_matcher.go `substituteVariables`: substitution applied to every
value of an action map. -/
def substituteVariables (action : GoMap) (eventData : GoMap) : GoMap :=
  substMapEntries action eventData

/-- The world the executor acts on: the store, the in-memory rate-limit
state, and the trace of `CallWhatsmeowMethod` invocations. -/
structure World where
  db : Database
  rl : RateLimits
  calls : List (String × GoMap)

abbrev WmOracle := String → GoMap → Bool

/-- `CallWhatsmeowMethod`: records the call and reports the oracle's
success verdict (`result != nil && result.Success`). -/
def callWhatsmeow (wm : WmOracle) (w : World) (method : String)
    (params : GoMap) : Bool × World :=
  (wm method params, { w with calls := w.calls ++ [(method, params)] })

def executeSendMessage (wm : WmOracle) (w : World) (action : GoMap) :
    Bool × World :=
  match asStr (mlookup action "to") with
  | none => (false, w)
  | some toJid =>
    match asMap (mlookup action "message") with
    | none => (false, w)
    | some message =>
      callWhatsmeow wm w "SendMessage" [("to", .vstr toJid), ("message", .vmap message)]

/-- `executeSendReaction` is a stub in the source: always false, no call. -/
def executeSendReaction (w : World) : Bool × World := (false, w)

def executeMarkRead (wm : WmOracle) (w : World) (action : GoMap) :
    Bool × World :=
  match asList (mlookup action "message_ids") with
  | none => (false, w)
  | some messageIDs =>
    let chat := getStrD action "chat"
    let sender := getStrD action "sender"
    callWhatsmeow wm w "MarkRead"
      [("message_ids", .vlist messageIDs), ("chat", .vstr chat),
       ("sender", .vstr sender)]

def executeSendPresence (wm : WmOracle) (w : World) (action : GoMap) :
    Bool × World :=
  match asStr (mlookup action "state") with
  | none => (false, w)
  | some state => callWhatsmeow wm w "SendPresence" [("state", .vstr state)]

def executeSendChatPresence (wm : WmOracle) (w : World) (action : GoMap) :
    Bool × World :=
  match asStr (mlookup action "jid") with
  | none => (false, w)
  | some jid =>
    match asStr (mlookup action "state") with
    | none => (false, w)
    | some state =>
      let params := [("jid", .vstr jid), ("state", .vstr state)]
      let params :=
        match asStr (mlookup action "media") with
        | some media => params ++ [("media", .vstr media)]
        | none => params
      callWhatsmeow wm w "SendChatPresence" params

/-- `executeDelay` sleeps and reports success; the sleep has no modelled
effect.  The `seconds` field must be a float64. -/
def executeDelay (w : World) (action : GoMap) : Bool × World :=
  match mlookup action "seconds" with
  | some (.vfloat _) => (true, w)
  | _ => (false, w)

def executeCallMethod (wm : WmOracle) (w : World) (action : GoMap) :
    Bool × World :=
  match asStr (mlookup action "method") with
  | none => (false, w)
  | some method =>
    let params := (asMap (mlookup action "params")).getD []
    callWhatsmeow wm w method params

/-- event_matcher.go `executeReturnedActions`: substitute variables in each
directive and dispatch on its type, counting the successful ones. -/
def executeReturnedActions (wm : WmOracle) (w : World) (actions : List GoVal)
    (eventData : GoMap) : Nat × World :=
  match actions with
  | [] => (0, w)
  | action :: rest =>
    let (n, w) :=
      match action with
      | .vmap actionMap =>
        let actionMap := substituteVariables actionMap eventData
        let (ok, w2) :=
          match getStrD actionMap "type" with
          | "send_message" => executeSendMessage wm w actionMap
          | "send_reaction" => executeSendReaction w
          | "mark_read" => executeMarkRead wm w actionMap
          | "send_presence" => executeSendPresence wm w actionMap
          | "send_chat_presence" => executeSendChatPresence wm w actionMap
          | "delay" => executeDelay w actionMap
          | "call_method" => executeCallMethod wm w actionMap
          | _ => (false, w)
        (if ok then 1 else 0, w2)
      | _ => (0, w)
    let (m, w) := executeReturnedActions wm w rest eventData
    (n + m, w)

/-- event_matcher.go `executeDirectActions`: run the static directive list
and report `\x7bsuccess: true, actions_executed: n\x7d`. -/
def executeDirectActions (wm : WmOracle) (w : World) (action : GoMap)
    (eventData : GoMap) : Except String GoMap × World :=
  match asList (mlookup action "actions") with
  | none => (.error "missing actions array", w)
  | some actions =>
    let (executed, w) := executeReturnedActions wm w actions eventData
    (.ok [("success", .vbool true), ("actions_executed", .vint executed)], w)

abbrev PyOracle := GoMap → GoMap → Int → Except String GoMap

/-- `executePythonAction` is an opaque scripted-action capability: the
Python code is shipped to an external interpreter over MCP and the decoded
handler result (or the error) comes back.  Only its request shape — the
action map, the prepared event data and the timeout — is modelled. -/
def executePythonAction (py : PyOracle) (action : GoMap) (eventData : GoMap)
    (timeout : Int) : Except String GoMap :=
  py action eventData timeout

abbrev DlOracle := GoMap → Except String String

/-- `downloadMedia`: the message-id and media-type preconditions, then the
client/filesystem download as an oracle. -/
def downloadMedia (dl : DlOracle) (event : GoMap) : Except String String :=
  match asStr (mlookup event "message_id") with
  | none => .error "no message ID"
  | some messageID =>
    if messageID == "" then .error "no message ID"
    else
      let mediaType := getStrD event "media_type"
      if mediaType == "" then .error "no media type"
      else dl event

/-- event_matcher.go `prepareEventData`: copy the event and attach
`media_path`/`has_media` when a media download succeeds. -/
def prepareEventData (dl : DlOracle) (event : GoMap) : GoMap :=
  let eventData := event
  match asStr (mlookup event "media_type") with
  | some mediaType =>
    if mediaType != "" then
      match downloadMedia dl event with
      | .ok mediaPath =>
        if mediaPath != "" then
          mset (mset eventData "media_path" (.vstr mediaPath)) "has_media" (.vbool true)
        else eventData
      | .error _ => eventData
    else eventData
  | none => eventData

/-- `logExecutionSuccess` fused with `LogHandlerExecution`: one row with
`success = 1` and the executed-action count. -/
def logExecutionSuccess (db : Database) (handlerID : String) (event : GoMap)
    (startTime completedAt : Nat) (durationMs : Int) (actionsExecuted : Int) :
    Database :=
  let row : ExecRow :=
    { handler_id := handlerID
      event_id := getStrD event "message_id"
      event_type := getStrD event "event_type"
      from_jid := getStrD event "from"
      started_at := startTime
      completed_at := completedAt
      duration_ms := durationMs
      success := 1
      error := none
      actions_executed := some actionsExecuted }
  { db with executions := db.executions ++ [row] }

/-- `logExecutionError` fused with `LogHandlerExecution`: one row with
`success = 0`, the message, and no actions_executed value (the execution
map carries no such key, so the column binds NULL). -/
def logExecutionError (db : Database) (handlerID : String) (event : GoMap)
    (startTime completedAt : Nat) (errorMsg : String) : Database :=
  let row : ExecRow :=
    { handler_id := handlerID
      event_id := getStrD event "message_id"
      event_type := getStrD event "event_type"
      from_jid := getStrD event "from"
      started_at := startTime
      completed_at := completedAt
      duration_ms := ((completedAt : Int) - startTime)
      success := 0
      error := some errorMsg
      actions_executed := none }
  { db with executions := db.executions ++ [row] }

/-- event_matcher.go `executeHandler`: one full execution unit for a
matched handler — record for rate limiting, prepare event data, dispatch
on the action type, then log and update breaker state and stats.  The
single `now` stands for every clock reading of the unit, so the recorded
duration is 0. -/
def executeHandler (wm : WmOracle) (py : PyOracle) (dl : DlOracle)
    (w : World) (handler event : GoMap) (now : Nat) : World :=
  let handlerID := getStrD handler "handler_id"
  let startTime := now
  -- Record execution start
  let w := { w with rl := RecordExecution w.rl handlerID event now }
  -- Get timeout
  let timeout : Int :=
    match asInt64 (mlookup handler "timeout_seconds") with
    | some t => if t > 0 then t else 30
    | none => 30
  -- Prepare event data for handler
  let eventData := prepareEventData dl event
  -- Get action definition
  match asMap (mlookup handler "action") with
  | none =>
    { w with
        db := logExecutionError w.db handlerID event startTime now
          "Invalid action definition" }
  | some action =>
    let actionType := getStrD action "type"
    let (result, w) : Except String GoMap × World :=
      match actionType with
      | "python" => (executePythonAction py action eventData timeout, w)
      | "actions" => executeDirectActions wm w action eventData
      | _ => (.error ("unknown action type: " ++ actionType), w)
    match result with
    | .error e =>
      let w := { w with db := logExecutionError w.db handlerID event startTime now e }
      let w := { w with db := UpdateCircuitBreaker w.db handlerID false now }
      { w with db := dbUpdateHandlerStats w.db handlerID false e now }
    | .ok result =>
      if (asBool (result.lookup "success")).getD false = false then
        let errorMsg := getStrD result "error"
        let w := { w with db := logExecutionError w.db handlerID event startTime now errorMsg }
        let w := { w with db := UpdateCircuitBreaker w.db handlerID false now }
        { w with db := dbUpdateHandlerStats w.db handlerID false errorMsg now }
      else
        -- Execute returned actions
        let (actionsExecuted, w) :=
          match asList (result.lookup "actions") with
          | some actions => executeReturnedActions wm w actions eventData
          | none => (0, w)
        let durationMs : Int := ((now : Int) - startTime)
        let w := { w with
          db := logExecutionSuccess w.db handlerID event startTime now durationMs
            actionsExecuted }
        let w := { w with db := UpdateCircuitBreaker w.db handlerID true now }
        { w with db := dbUpdateHandlerStats w.db handlerID true "" now }

/-!
The `register_handler` operation (`handleRegisterHandler` of the
operations file).  The store save is the pure `dbSaveHandler`; an SQL
execution error is an environment failure outside the model.
-/

structure OperationResult where
  success : Bool
  error : String
  message : String

/-- The default-filling step of `handleRegisterHandler` (run only after
validation passes). -/
def applyRegisterDefaults (d : GoMap) : GoMap :=
  let d := if (d.lookup "enabled").isNone then mset d "enabled" (.vbool true) else d
  let d := if (d.lookup "priority").isNone then mset d "priority" (.vint 0) else d
  if (d.lookup "timeout_seconds").isNone then mset d "timeout_seconds" (.vint 30) else d

/-- operations `handleRegisterHandler`: validate, fill defaults, save. -/
def handleRegisterHandler (db : Database) (inputData : Option GoMap)
    (now : Nat) : OperationResult × Database :=
  match inputData with
  | none => ({ success := false, error := "Missing handler data", message := "" }, db)
  | some d =>
    match asStr (d.lookup "handler_id") with
    | none =>
      ({ success := false, error := "Missing or invalid handler_id", message := "" }, db)
    | some handlerID =>
      if handlerID == "" then
        ({ success := false, error := "Missing or invalid handler_id", message := "" }, db)
      else if (d.lookup "event_filter").isNone then
        ({ success := false, error := "Missing event_filter", message := "" }, db)
      else if (d.lookup "action").isNone then
        ({ success := false, error := "Missing action", message := "" }, db)
      else
        let d := applyRegisterDefaults d
        ({ success := true, error := ""
           message := "Handler registered successfully" },
         dbSaveHandler db d now)

/-!
Concrete scenario material for the breaker claims.
-/

/-- A breaker-enabled handler row with `threshold = 2` and no recorded
errors, as registered for the C1 scenario. -/
def c1Row : HandlerRow :=
  { handler_id := "h1"
    description := none
    event_filter := .vmap [("event_types", .vlist [.vstr "message"])]
    action := .vmap [("type", .vstr "actions"), ("actions", .vlist [])]
    enabled := 1
    priority := 5
    max_executions_per_minute := none
    max_executions_per_hour := none
    max_executions_per_sender_per_hour := none
    cooldown_seconds := none
    timeout_seconds := some 30
    circuit_breaker_enabled := 1
    circuit_breaker_threshold := some 2
    circuit_breaker_reset_seconds := some 60
    created_at := 100
    updated_at := 100
    execution_count := 0
    last_executed := none
    last_error := none
    last_error_time := none
    total_errors := 0
    circuit_breaker_state := some "closed" }

def c1Db : Database := { handlers := [("h1", c1Row)], executions := [] }

/-- One failed execution's breaker/stats writes, in the order
`executeHandler` performs them: `UpdateCircuitBreaker(handlerID, false)`
then `UpdateHandlerStats(handlerID, false, err)`. -/
def failedExecutionStep (db : Database) (handlerID : String) (errMsg : String)
    (now : Nat) : Database :=
  dbUpdateHandlerStats (UpdateCircuitBreaker db handlerID false now)
    handlerID false errMsg now

/-- C1.  The claim says two failed executions of a breaker-enabled handler
with `circuit_breaker_threshold = 2` leave the stored state `open`.  The
code disagrees: `UpdateCircuitBreaker` reads `total_errors` before
`UpdateHandlerStats` increments it (seeing 0, then 1, both below the
threshold), so after the two failures the stored state is still `closed`
with `total_errors = 2`; and even on the third failure, where the open
branch does run, `SaveHandler`'s INSERT OR REPLACE does not name the
`circuit_breaker_state` column, so the stored state reverts to the schema
default `closed` — the breaker never persists as open. -/
theorem c1_two_failures_leave_breaker_closed :
    (((failedExecutionStep (failedExecutionStep c1Db "h1" "boom" 1000)
        "h1" "boom" 1060).handlers.lookup "h1").map
        (fun r => r.circuit_breaker_state)) = some (some "closed")
    ∧ (((failedExecutionStep (failedExecutionStep c1Db "h1" "boom" 1000)
        "h1" "boom" 1060).handlers.lookup "h1").map
        (fun r => r.total_errors)) = some 2
    ∧ (((UpdateCircuitBreaker
          (failedExecutionStep (failedExecutionStep c1Db "h1" "boom" 1000)
            "h1" "boom" 1060) "h1" false 1120).handlers.lookup "h1").map
        (fun r => r.circuit_breaker_state)) = some (some "closed") := by
  exact ⟨rfl, rfl, rfl⟩

/-- A breaker-enabled handler row whose error count has already reached
its threshold, with non-trivial stats, for the C2 frame check. -/
def c2Row : HandlerRow :=
  { handler_id := "h2"
    description := some "frame check"
    event_filter := .vmap []
    action := .vmap [("type", .vstr "actions"), ("actions", .vlist [])]
    enabled := 1
    priority := 0
    max_executions_per_minute := none
    max_executions_per_hour := none
    max_executions_per_sender_per_hour := none
    cooldown_seconds := none
    timeout_seconds := some 30
    circuit_breaker_enabled := 1
    circuit_breaker_threshold := some 5
    circuit_breaker_reset_seconds := some 300
    created_at := 100
    updated_at := 900
    execution_count := 7
    last_executed := some 900
    last_error := some "previous failure"
    last_error_time := some 900
    total_errors := 5
    circuit_breaker_state := some "closed" }

def c2Db : Database := { handlers := [("h2", c2Row)], executions := [] }

/-- C2.  The claim says that after `UpdateCircuitBreaker` the stored record
holds the new breaker state (open after a failure that reached the
threshold) while `execution_count`, `total_errors`, `last_error`,
`last_error_time` and `created_at` are untouched.  The code disagrees on
both counts: the failure branch sets `circuit_breaker_state = "open"` in
the in-memory map and calls `SaveHandler`, but `SaveHandler`'s INSERT OR
REPLACE does not name that column, so the stored state reverts to the
default `closed`; and the REPLACE resets every stats column and
`created_at` (here 7, 5, a message, 900 and 100 become 0, 0, NULL, NULL
and the save time 2000). -/
theorem c2_breaker_save_drops_state_and_stats :
    ((UpdateCircuitBreaker c2Db "h2" false 2000).handlers.lookup "h2").map
      (fun r => (r.circuit_breaker_state, r.execution_count, r.total_errors,
                 r.last_error, r.last_error_time, r.created_at))
    = some (some "closed", 0, 0, none, none, 2000) := by
  exact rfl

/-!
C3 scenario: a static (direct-actions) auto-reply handler and a plain
inbound text message.
-/

/-- Regex engine instance for scenarios whose filters carry no
`text_regex` clause (never consulted there). -/
def reNone : String → String → Option Bool := fun _ _ => none

/-- Messaging backend that accepts every call. -/
def wmAll : WmOracle := fun _ _ => true

/-- Scripted-action capability that is never reachable in the scenario. -/
def pyNone : PyOracle := fun _ _ _ => .error "MCP connection not available"

/-- Media downloader that is never reachable in the scenario. -/
def dlNone : DlOracle := fun _ => .error "WhatsApp client not available"

def c3Row : HandlerRow :=
  { handler_id := "auto-reply"
    description := none
    event_filter := .vmap [
      ("event_types", .vlist [.vstr "message"]),
      ("is_from_me", .vbool false),
      ("text_contains", .vlist [.vstr "hello"])]
    action := .vmap [
      ("type", .vstr "actions"),
      ("actions", .vlist [
        .vmap [
          ("type", .vstr "send_message"),
          ("to", .vstr "\x7bevent.from\x7d"),
          ("message", .vmap [("conversation", .vstr "hi!")])]])]
    enabled := 1
    priority := 0
    max_executions_per_minute := none
    max_executions_per_hour := none
    max_executions_per_sender_per_hour := none
    cooldown_seconds := none
    timeout_seconds := some 30
    circuit_breaker_enabled := 0
    circuit_breaker_threshold := none
    circuit_breaker_reset_seconds := none
    created_at := 100
    updated_at := 100
    execution_count := 0
    last_executed := none
    last_error := none
    last_error_time := none
    total_errors := 0
    circuit_breaker_state := some "closed" }

def c3Db : Database := { handlers := [("auto-reply", c3Row)], executions := [] }

def c3Event : GoMap := [
  ("event_type", .vstr "message"),
  ("message_id", .vstr "MSG1"),
  ("from", .vstr "alice@s.whatsapp.net"),
  ("chat", .vstr "alice@s.whatsapp.net"),
  ("is_from_me", .vbool false),
  ("is_group", .vbool false),
  ("message_type", .vstr "text"),
  ("text_content", .vstr "hello there")]

def c3Handler : GoMap := rowToHandlerMap c3Row

def c3Result : World :=
  executeHandler wmAll pyNone dlNone
    { db := c3Db, rl := [], calls := [] } c3Handler c3Event 5000

/-- C3.  For the claimed event and static auto-reply handler, the handler
matches and exactly one send_message directive is executed with `to`
resolved to the event's `from` value — but the single HandlerExecution
record is written with `actions_executed = 0`, not 1 as the claim states:
`executeHandler` recomputes the count from `result["actions"]`, a key the
direct-actions path never sets (its count comes back under
`"actions_executed"`, which the caller ignores). -/
theorem c3_direct_actions_record_count :
    (MatchEvent reNone (LoadHandlers c3Db) [] c3Event 5000).1 = [c3Handler]
    ∧ c3Result.calls = [("SendMessage",
        [("to", .vstr "alice@s.whatsapp.net"),
         ("message", .vmap [("conversation", .vstr "hi!")])])]
    ∧ c3Result.db.executions.map
        (fun r => (r.handler_id, r.success, r.actions_executed))
      = [("auto-reply", 1, some 0)] := by
  exact ⟨rfl, rfl, rfl⟩

/-!
Association-list and limiter lemmas shared by the rate-limit claims.
-/

theorem lookup_updateAssoc_self {β : Type} (l : List (String × β)) (k : String)
    (v : β) : (updateAssoc l k v).lookup k = some v := by
  induction l with
  | nil => simp [updateAssoc, List.lookup]
  | cons p rest ih =>
    rcases p with ⟨k0, v0⟩
    by_cases h : k0 = k
    · subst h
      simp [updateAssoc, List.lookup]
    · have hb : (k0 == k) = false := beq_eq_false_iff_ne.mpr h
      have hb2 : (k == k0) = false := beq_eq_false_iff_ne.mpr (Ne.symm h)
      simp [updateAssoc, hb, List.lookup, hb2, ih]

theorem lookup_updateAssoc_ne {β : Type} (l : List (String × β)) (k k2 : String)
    (v : β) (h : k2 ≠ k) :
    (updateAssoc l k v).lookup k2 = l.lookup k2 := by
  induction l with
  | nil =>
    have hb : (k2 == k) = false := beq_eq_false_iff_ne.mpr h
    simp [updateAssoc, List.lookup, hb]
  | cons p rest ih =>
    rcases p with ⟨k0, v0⟩
    by_cases h0 : k0 = k
    · subst h0
      have hb : (k2 == k0) = false := beq_eq_false_iff_ne.mpr h
      simp [updateAssoc, List.lookup, hb]
    · have hb : (k0 == k) = false := beq_eq_false_iff_ne.mpr h0
      simp only [updateAssoc, hb, Bool.false_eq_true, if_false]
      simp only [List.lookup]
      cases hk2 : k2 == k0 <;> simp [ih]

theorem getLimiter_ensureLimiter (rl : RateLimits) (k id : String) :
    getLimiter (ensureLimiter rl k) id = getLimiter rl id := by
  unfold ensureLimiter
  cases hl : rl.lookup k with
  | some lim => rfl
  | none =>
    by_cases hid : id = k
    · subst hid
      unfold getLimiter
      rw [lookup_updateAssoc_self, hl]
      rfl
    · unfold getLimiter
      rw [lookup_updateAssoc_ne _ _ _ _ hid]

theorem senderCountsOf_ensureSenderCounts (limiter : RateLimiter) (jid : String) :
    senderCountsOf (ensureSenderCounts limiter jid) jid = senderCountsOf limiter jid := by
  unfold ensureSenderCounts
  cases hl : limiter.perSenderCounts.lookup jid with
  | some c => rfl
  | none =>
    simp [senderCountsOf, hl, lookup_updateAssoc_self]

/-- C10.  Only strictly positive configured limits are enforced: whenever
`checkRateLimits` blocks, one of the three limits is configured with a
positive value that its current bucket count has already reached, so a
limit configured as 0 or negative can never be the cause of a block. -/
theorem c10_only_positive_limits_block (handler event : GoMap)
    (rl : RateLimits) (now : Nat)
    (h : (checkRateLimits handler event rl now).1 = false) :
    (∃ m, asInt64 (mlookup handler "max_executions_per_minute") = some m ∧ 0 < m ∧
      m ≤ ((getLimiter rl (getStrD handler "handler_id")).perMinuteCounts (now / 60) : Int))
    ∨ (∃ m, asInt64 (mlookup handler "max_executions_per_hour") = some m ∧ 0 < m ∧
      m ≤ ((getLimiter rl (getStrD handler "handler_id")).perHourCounts (now / 3600) : Int))
    ∨ (∃ m, asInt64 (mlookup handler "max_executions_per_sender_per_hour") = some m ∧ 0 < m ∧
      m ≤ (senderCountsOf (getLimiter rl (getStrD handler "handler_id"))
        (getStrD event "from") (now / 3600) : Int)) := by
  unfold checkRateLimits at h
  simp only [getLimiter_ensureLimiter] at h
  split at h
  · -- minute-blocked branch
    rename_i hmin
    revert hmin
    split
    · rename_i m hm
      intro hmin
      have := of_decide_eq_true hmin
      exact Or.inl ⟨m, hm, this.1, this.2⟩
    · intro hmin
      exact absurd hmin (by simp)
  · split at h
    · -- hour-blocked branch
      rename_i hhour
      revert hhour
      split
      · rename_i m hm
        intro hhour
        have := of_decide_eq_true hhour
        exact Or.inr (Or.inl ⟨m, hm, this.1, this.2⟩)
      · intro hhour
        exact absurd hhour (by simp)
    · -- sender clause
      split at h
      · rename_i m hm
        split at h
        · split at h
          · split at h
            · rename_i hpos hfrom hcount
              refine Or.inr (Or.inr ⟨m, hm, hpos, ?_⟩)
              rwa [senderCountsOf_ensureSenderCounts] at hcount
            · simp at h
          · simp at h
        · simp at h
      · simp at h

theorem getLimiter_updateAssoc_self (rl : RateLimits) (k : String)
    (lim : RateLimiter) : getLimiter (updateAssoc rl k lim) k = lim := by
  unfold getLimiter
  rw [lookup_updateAssoc_self]
  rfl

theorem getLimiter_updateAssoc_ne (rl : RateLimits) (k id : String)
    (lim : RateLimiter) (h : id ≠ k) :
    getLimiter (updateAssoc rl k lim) id = getLimiter rl id := by
  unfold getLimiter
  rw [lookup_updateAssoc_ne _ _ _ _ h]

theorem ensureSenderCounts_perMinuteCounts (limiter : RateLimiter) (jid : String) :
    (ensureSenderCounts limiter jid).perMinuteCounts = limiter.perMinuteCounts := by
  unfold ensureSenderCounts
  cases limiter.perSenderCounts.lookup jid <;> rfl

theorem ensureSenderCounts_perHourCounts (limiter : RateLimiter) (jid : String) :
    (ensureSenderCounts limiter jid).perHourCounts = limiter.perHourCounts := by
  unfold ensureSenderCounts
  cases limiter.perSenderCounts.lookup jid <;> rfl

theorem ensureSenderCounts_lastExecution (limiter : RateLimiter) (jid : String) :
    (ensureSenderCounts limiter jid).lastExecution = limiter.lastExecution := by
  unfold ensureSenderCounts
  cases limiter.perSenderCounts.lookup jid <;> rfl

theorem senderCountsOf_ensureSenderCounts_all (limiter : RateLimiter)
    (jid jid2 : String) :
    senderCountsOf (ensureSenderCounts limiter jid) jid2
      = senderCountsOf limiter jid2 := by
  by_cases hj : jid2 = jid
  · subst hj
    exact senderCountsOf_ensureSenderCounts limiter jid2
  · unfold ensureSenderCounts
    cases hl : limiter.perSenderCounts.lookup jid with
    | some c => rfl
    | none =>
      unfold senderCountsOf
      simp only
      rw [lookup_updateAssoc_ne _ _ _ _ hj]

/-- The read-only verdict of `checkRateLimits`, as a function of the
handler's limiter alone (proof device for the purity claim; the creation
of missing maps does not change any count it reads). -/
def rateLimitVerdict (handler event : GoMap) (limiter : RateLimiter)
    (now : Nat) : Bool :=
  let currentMinute := now / 60
  let currentHour := now / 3600
  let minuteBlocked : Bool :=
    match asInt64 (mlookup handler "max_executions_per_minute") with
    | some maxPerMin =>
      decide (maxPerMin > 0 ∧ (limiter.perMinuteCounts currentMinute : Int) ≥ maxPerMin)
    | none => false
  if minuteBlocked then false
  else
    let hourBlocked : Bool :=
      match asInt64 (mlookup handler "max_executions_per_hour") with
      | some maxPerHour =>
        decide (maxPerHour > 0 ∧ (limiter.perHourCounts currentHour : Int) ≥ maxPerHour)
      | none => false
    if hourBlocked then false
    else
      match asInt64 (mlookup handler "max_executions_per_sender_per_hour") with
      | some maxPerSenderHour =>
        if maxPerSenderHour > 0 then
          let fromJID := getStrD event "from"
          if fromJID != "" then
            if (senderCountsOf limiter fromJID currentHour : Int) ≥ maxPerSenderHour then
              false
            else true
          else true
        else true
      | none => true

theorem checkRateLimits_fst_eq_verdict (handler event : GoMap)
    (rl : RateLimits) (now : Nat) :
    (checkRateLimits handler event rl now).1
      = rateLimitVerdict handler event (getLimiter rl (getStrD handler "handler_id")) now := by
  unfold checkRateLimits rateLimitVerdict
  simp only [getLimiter_ensureLimiter, senderCountsOf_ensureSenderCounts]
  split
  · rfl
  · split
    · rfl
    · split
      · split
        · split
          · split <;> rfl
          · rfl
        · rfl
      · rfl

theorem rateLimitVerdict_congr (handler event : GoMap) (l1 l2 : RateLimiter)
    (now : Nat)
    (h1 : l1.perMinuteCounts = l2.perMinuteCounts)
    (h2 : l1.perHourCounts = l2.perHourCounts)
    (h3 : ∀ jid, senderCountsOf l1 jid = senderCountsOf l2 jid) :
    rateLimitVerdict handler event l1 now = rateLimitVerdict handler event l2 now := by
  unfold rateLimitVerdict
  simp only [h1, h2, h3]

theorem checkRateLimits_preserves (handler event : GoMap) (rl : RateLimits)
    (now : Nat) (id : String) :
    ((getLimiter (checkRateLimits handler event rl now).2 id).perMinuteCounts
       = (getLimiter rl id).perMinuteCounts)
    ∧ ((getLimiter (checkRateLimits handler event rl now).2 id).perHourCounts
       = (getLimiter rl id).perHourCounts)
    ∧ (∀ jid, senderCountsOf (getLimiter (checkRateLimits handler event rl now).2 id) jid
       = senderCountsOf (getLimiter rl id) jid)
    ∧ ((getLimiter (checkRateLimits handler event rl now).2 id).lastExecution
       = (getLimiter rl id).lastExecution) := by
  have base : ∀ rl2 : RateLimits,
      (∀ i, getLimiter rl2 i = getLimiter rl i) →
      ((getLimiter rl2 id).perMinuteCounts = (getLimiter rl id).perMinuteCounts)
      ∧ ((getLimiter rl2 id).perHourCounts = (getLimiter rl id).perHourCounts)
      ∧ (∀ jid, senderCountsOf (getLimiter rl2 id) jid
         = senderCountsOf (getLimiter rl id) jid)
      ∧ ((getLimiter rl2 id).lastExecution = (getLimiter rl id).lastExecution) := by
    intro rl2 h
    rw [h id]
    exact ⟨rfl, rfl, fun _ => rfl, rfl⟩
  have hupd :
      (∀ i, (getLimiter
        (updateAssoc (ensureLimiter rl (getStrD handler "handler_id"))
          (getStrD handler "handler_id")
          (ensureSenderCounts
            (getLimiter (ensureLimiter rl (getStrD handler "handler_id"))
              (getStrD handler "handler_id"))
            (getStrD event "from"))) i).perMinuteCounts
         = (getLimiter rl i).perMinuteCounts)
      ∧ (∀ i, (getLimiter
        (updateAssoc (ensureLimiter rl (getStrD handler "handler_id"))
          (getStrD handler "handler_id")
          (ensureSenderCounts
            (getLimiter (ensureLimiter rl (getStrD handler "handler_id"))
              (getStrD handler "handler_id"))
            (getStrD event "from"))) i).perHourCounts
         = (getLimiter rl i).perHourCounts)
      ∧ (∀ i jid, senderCountsOf (getLimiter
        (updateAssoc (ensureLimiter rl (getStrD handler "handler_id"))
          (getStrD handler "handler_id")
          (ensureSenderCounts
            (getLimiter (ensureLimiter rl (getStrD handler "handler_id"))
              (getStrD handler "handler_id"))
            (getStrD event "from"))) i) jid
         = senderCountsOf (getLimiter rl i) jid)
      ∧ (∀ i, (getLimiter
        (updateAssoc (ensureLimiter rl (getStrD handler "handler_id"))
          (getStrD handler "handler_id")
          (ensureSenderCounts
            (getLimiter (ensureLimiter rl (getStrD handler "handler_id"))
              (getStrD handler "handler_id"))
            (getStrD event "from"))) i).lastExecution
         = (getLimiter rl i).lastExecution) := by
    refine ⟨fun i => ?_, fun i => ?_, fun i jid => ?_, fun i => ?_⟩ <;>
    · by_cases hi : i = getStrD handler "handler_id"
      · subst hi
        rw [getLimiter_updateAssoc_self, getLimiter_ensureLimiter]
        first
        | exact ensureSenderCounts_perMinuteCounts _ _
        | exact ensureSenderCounts_perHourCounts _ _
        | exact senderCountsOf_ensureSenderCounts_all _ _ _
        | exact ensureSenderCounts_lastExecution _ _
      · rw [getLimiter_updateAssoc_ne _ _ _ _ hi, getLimiter_ensureLimiter]
  unfold checkRateLimits
  simp only
  split
  · exact base _ (fun i => getLimiter_ensureLimiter rl _ i)
  · split
    · exact base _ (fun i => getLimiter_ensureLimiter rl _ i)
    · split
      · split
        · split
          · split
            · exact ⟨hupd.1 id, hupd.2.1 id, fun jid => hupd.2.2.1 id jid, hupd.2.2.2 id⟩
            · exact ⟨hupd.1 id, hupd.2.1 id, fun jid => hupd.2.2.1 id jid, hupd.2.2.2 id⟩
          · exact base _ (fun i => getLimiter_ensureLimiter rl _ i)
        · exact base _ (fun i => getLimiter_ensureLimiter rl _ i)
      · exact base _ (fun i => getLimiter_ensureLimiter rl _ i)

/-- C7.  `checkRateLimits` is a pure read: it leaves every per-minute,
per-hour and per-sender-per-hour bucket count and every limiter's
lastExecution timestamp unchanged (the only state it touches is the
creation of missing empty maps, which no count read can observe), and an
immediately repeated call with the same handler, event and clock returns
the same verdict. -/
theorem c7_check_limits_is_pure_read (handler event : GoMap) (rl : RateLimits)
    (now : Nat) :
    (∀ id m, (getLimiter (checkRateLimits handler event rl now).2 id).perMinuteCounts m
       = (getLimiter rl id).perMinuteCounts m)
    ∧ (∀ id h2, (getLimiter (checkRateLimits handler event rl now).2 id).perHourCounts h2
       = (getLimiter rl id).perHourCounts h2)
    ∧ (∀ id jid h2, senderCountsOf (getLimiter (checkRateLimits handler event rl now).2 id) jid h2
       = senderCountsOf (getLimiter rl id) jid h2)
    ∧ (∀ id, (getLimiter (checkRateLimits handler event rl now).2 id).lastExecution
       = (getLimiter rl id).lastExecution)
    ∧ (checkRateLimits handler event (checkRateLimits handler event rl now).2 now).1
       = (checkRateLimits handler event rl now).1 := by
  refine ⟨?_, ?_, ?_, ?_, ?_⟩
  · intro id m
    rw [(checkRateLimits_preserves handler event rl now id).1]
  · intro id h2
    rw [(checkRateLimits_preserves handler event rl now id).2.1]
  · intro id jid h2
    rw [(checkRateLimits_preserves handler event rl now id).2.2.1 jid]
  · intro id
    exact (checkRateLimits_preserves handler event rl now id).2.2.2
  · rw [checkRateLimits_fst_eq_verdict, checkRateLimits_fst_eq_verdict]
    exact rateLimitVerdict_congr _ _ _ _ _
      (checkRateLimits_preserves handler event rl now _).1
      (checkRateLimits_preserves handler event rl now _).2.1
      (fun jid => (checkRateLimits_preserves handler event rl now _).2.2.1 jid)

/-!
C10 witness material: a handler whose per-minute limit of 2 is already
reached in the current bucket.
-/

def c10Handler : GoMap :=
  [("handler_id", .vstr "h"), ("max_executions_per_minute", .vint64 2)]

def c10Limits : RateLimits :=
  [("h", { perMinuteCounts := fun m => if m == 16 then 2 else 0
           perHourCounts := fun _ => 0
           perSenderCounts := []
           lastExecution := none })]

theorem c10_witness :
    (∃ m, asInt64 (mlookup c10Handler "max_executions_per_minute") = some m ∧ 0 < m ∧
      m ≤ ((getLimiter c10Limits (getStrD c10Handler "handler_id")).perMinuteCounts (1000 / 60) : Int))
    ∨ (∃ m, asInt64 (mlookup c10Handler "max_executions_per_hour") = some m ∧ 0 < m ∧
      m ≤ ((getLimiter c10Limits (getStrD c10Handler "handler_id")).perHourCounts (1000 / 3600) : Int))
    ∨ (∃ m, asInt64 (mlookup c10Handler "max_executions_per_sender_per_hour") = some m ∧ 0 < m ∧
      m ≤ (senderCountsOf (getLimiter c10Limits (getStrD c10Handler "handler_id"))
        (getStrD [] "from") (1000 / 3600) : Int)) :=
  c10_only_positive_limits_block c10Handler [] c10Limits 1000 (by rfl)

/-!
C6: the per-minute bucket of the rate limiter.
-/

theorem RecordExecution_perMinuteCounts (rl : RateLimits) (id : String)
    (ev : GoMap) (t : Nat) :
    (getLimiter (RecordExecution rl id ev t) id).perMinuteCounts
      = dropOldCounts (bumpCount ((getLimiter rl id).perMinuteCounts) (t / 60))
          ((t - 7200) / 60) := by
  unfold RecordExecution
  rw [getLimiter_updateAssoc_self]
  simp only [getLimiter_ensureLimiter]
  split <;> rfl

theorem dropOldCounts_apply_ge (f : Nat → Nat) (o k : Nat) (h : ¬ k < o) :
    dropOldCounts f o k = f k := if_neg h

theorem bumpCount_self (f : Nat → Nat) (k : Nat) : bumpCount f k k = f k + 1 := by
  simp [bumpCount]

theorem bumpCount_apply_ne (f : Nat → Nat) (key k : Nat) (h : k ≠ key) :
    bumpCount f key k = f k := by
  simp [bumpCount, h]

/-- A handler whose only configured limit is
`max_executions_per_minute = 3`. -/
def c6Handler : GoMap :=
  [("handler_id", .vstr "h6"), ("max_executions_per_minute", .vint64 3)]

/-- C6.  With `max_executions_per_minute = 3`, three `RecordExecution`
calls whose times fall in one minute bucket (`epoch/60`) make a
`checkRateLimits` call in that same bucket return blocked (false), while a
check in a strictly later bucket, with no further recording, returns
allowed (true). -/
theorem c6_minute_bucket_rate_limit (event : GoMap) (t1 t2 t3 t4 t5 : Nat)
    (h1 : t1 / 60 = t4 / 60) (h2 : t2 / 60 = t4 / 60) (h3 : t3 / 60 = t4 / 60)
    (h5 : t4 / 60 < t5 / 60) :
    (checkRateLimits c6Handler event
      (RecordExecution (RecordExecution (RecordExecution [] "h6" event t1)
        "h6" event t2) "h6" event t3) t4).1 = false
    ∧ (checkRateLimits c6Handler event
      (RecordExecution (RecordExecution (RecordExecution [] "h6" event t1)
        "h6" event t2) "h6" event t3) t5).1 = true := by
  have hid : getStrD c6Handler "handler_id" = "h6" := rfl
  have hmin : asInt64 (mlookup c6Handler "max_executions_per_minute") = some 3 := rfl
  have hhour : asInt64 (mlookup c6Handler "max_executions_per_hour") = none := rfl
  have hsender : asInt64 (mlookup c6Handler "max_executions_per_sender_per_hour") = none := rfl
  have hd1 : (t1 - 7200) / 60 ≤ t1 / 60 := Nat.div_le_div_right (Nat.sub_le t1 7200)
  have hd2 : (t2 - 7200) / 60 ≤ t2 / 60 := Nat.div_le_div_right (Nat.sub_le t2 7200)
  have hd3 : (t3 - 7200) / 60 ≤ t3 / 60 := Nat.div_le_div_right (Nat.sub_le t3 7200)
  have hzero : (getLimiter [] "h6").perMinuteCounts = fun _ => 0 := rfl
  have ho1 : ¬ (t4 / 60 < (t1 - 7200) / 60) := by omega
  have ho2 : ¬ (t4 / 60 < (t2 - 7200) / 60) := by omega
  have ho3 : ¬ (t4 / 60 < (t3 - 7200) / 60) := by omega
  have ho1b : ¬ (t5 / 60 < (t1 - 7200) / 60) := by omega
  have ho2b : ¬ (t5 / 60 < (t2 - 7200) / 60) := by omega
  have ho3b : ¬ (t5 / 60 < (t3 - 7200) / 60) := by omega
  have hne : t5 / 60 ≠ t4 / 60 := Ne.symm (Nat.ne_of_lt h5)
  constructor
  · rw [checkRateLimits_fst_eq_verdict, hid]
    unfold rateLimitVerdict
    rw [RecordExecution_perMinuteCounts, RecordExecution_perMinuteCounts,
      RecordExecution_perMinuteCounts, hzero]
    simp only [hmin, hhour, hsender, h1, h2, h3]
    rw [dropOldCounts_apply_ge _ _ _ ho3, bumpCount_self,
      dropOldCounts_apply_ge _ _ _ ho2, bumpCount_self,
      dropOldCounts_apply_ge _ _ _ ho1, bumpCount_self]
    simp
  · rw [checkRateLimits_fst_eq_verdict, hid]
    unfold rateLimitVerdict
    rw [RecordExecution_perMinuteCounts, RecordExecution_perMinuteCounts,
      RecordExecution_perMinuteCounts, hzero]
    simp only [hmin, hhour, hsender, h1, h2, h3]
    rw [dropOldCounts_apply_ge _ _ _ ho3b, bumpCount_apply_ne _ _ _ hne,
      dropOldCounts_apply_ge _ _ _ ho2b, bumpCount_apply_ne _ _ _ hne,
      dropOldCounts_apply_ge _ _ _ ho1b, bumpCount_apply_ne _ _ _ hne]
    simp

/-- C6 witness: three recordings at 1000s, 1005s and 1010s (bucket 16),
checked blocked at 1015s (bucket 16) and allowed again at 1080s
(bucket 18). -/
theorem c6_witness :
    (checkRateLimits c6Handler [] (RecordExecution (RecordExecution
      (RecordExecution [] "h6" [] 1000) "h6" [] 1005) "h6" [] 1010) 1015).1 = false
    ∧ (checkRateLimits c6Handler [] (RecordExecution (RecordExecution
      (RecordExecution [] "h6" [] 1000) "h6" [] 1005) "h6" [] 1010) 1080).1 = true :=
  c6_minute_bucket_rate_limit [] 1000 1005 1010 1015 1080
    (by decide) (by decide) (by decide) (by decide)

/-!
C5: clause-by-clause filter semantics (§4.2 of the spec, logical form).
-/

theorem containsString_iff (l : List GoVal) (s : String) :
    containsString l s = true ↔ GoVal.vstr s ∈ l := by
  unfold containsString
  rw [List.any_eq_true]
  constructor
  · rintro ⟨x, hx, hm⟩
    cases x <;> simp at hm
    case vstr s0 => exact hm ▸ hx
  · intro hmem
    exact ⟨.vstr s, hmem, by simp⟩

theorem listClause_iff (o : Option (List GoVal)) (s : String) :
    (match o with
     | some l => if l.length > 0 then containsString l s else true
     | none => true) = true
    ↔ (∀ l, o = some l → l ≠ [] → GoVal.vstr s ∈ l) := by
  cases o with
  | none => simp
  | some l =>
    by_cases hl : l = []
    · subst hl; simp
    · have hlen : l.length > 0 := List.length_pos.mpr hl
      simp [hlen, hl, containsString_iff]

theorem boolClause_iff (o : Option Bool) (eb : Bool) :
    (match o with
     | some b => b == eb
     | none => true) = true
    ↔ (∀ b, o = some b → b = eb) := by
  cases o with
  | none => simp
  | some b => simp [beq_iff_eq]

theorem groupClause_iff (o : Option (List GoVal)) (g : Bool) (c : String) :
    (match o with
     | some l => if l.length > 0 then g && containsString l c else true
     | none => true) = true
    ↔ (∀ l, o = some l → l ≠ [] → g = true ∧ GoVal.vstr c ∈ l) := by
  cases o with
  | none => simp
  | some l =>
    by_cases hl : l = []
    · subst hl; simp
    · have hlen : l.length > 0 := List.length_pos.mpr hl
      simp [hlen, hl, Bool.and_eq_true, containsString_iff]

theorem textContainsClause_iff (o : Option (List GoVal)) (textLower : String) :
    (match o with
     | some l =>
       if l.length > 0 then
         l.any (fun keyword =>
           match keyword with
           | .vstr keywordStr => goStrContains textLower (goToLower keywordStr)
           | _ => false)
       else true
     | none => true) = true
    ↔ (∀ l, o = some l → l ≠ [] →
        ∃ kw, GoVal.vstr kw ∈ l ∧ goStrContains textLower (goToLower kw) = true) := by
  cases o with
  | none => simp
  | some l =>
    by_cases hl : l = []
    · subst hl; simp
    · have hlen : l.length > 0 := List.length_pos.mpr hl
      show (if l.length > 0 then
         l.any (fun keyword =>
           match keyword with
           | .vstr keywordStr => goStrContains textLower (goToLower keywordStr)
           | _ => false)
       else true) = true ↔ _
      rw [if_pos hlen]
      constructor
      · intro hany l2 hl2 hne2
        cases hl2
        rcases List.any_eq_true.mp hany with ⟨x, hx, hm⟩
        cases x <;> simp at hm
        rename_i s0
        exact ⟨s0, hx, hm⟩
      · intro hall
        rcases hall l rfl hl with ⟨kw, hkw, hc⟩
        exact List.any_eq_true.mpr ⟨.vstr kw, hkw, hc⟩

theorem textRegexClause_iff (re : String → String → Option Bool)
    (o : Option String) (txt : String) :
    (match o with
     | some r =>
       if r != "" then
         match re r txt with
         | some true => true
         | _ => false
       else true
     | none => true) = true
    ↔ (∀ r, o = some r → r ≠ "" → re r txt = some true) := by
  cases o with
  | none => simp
  | some r =>
    by_cases hr : r = ""
    · subst hr; simp
    · have hbne : (r != "") = true := by simp [hr]
      show (if r != "" then
         match re r txt with
         | some true => true
         | _ => false
       else true) = true ↔ _
      rw [if_pos hbne]
      cases hre : re r txt with
      | none => simp [hre, hr]
      | some b =>
        cases b
        · simp [hre, hr]
        · simp [hre, hr]

/-- The event's derived has-media boolean (non-empty `media_type`). -/
def eventHasMedia (event : GoMap) : Bool :=
  match asStr (mlookup event "media_type") with
  | some mediaType => mediaType != ""
  | none => false

/-- The event's derived has-quoted-message boolean (non-empty
`quoted_message_id`). -/
def eventHasQuoted (event : GoMap) : Bool :=
  match asStr (mlookup event "quoted_message_id") with
  | some quotedID => quotedID != ""
  | none => false

/-- Spec-side filter semantics (§4.2): a conjunction of per-clause
predicates; an absent clause (or empty list) imposes nothing, list
clauses are membership tests, boolean clauses are exact equality,
group_jids additionally requires a group chat, text_contains is a
case-insensitive substring test of some listed keyword, and text_regex
must match (a malformed pattern — `re` returning `none` — never does). -/
def FilterSat (re : String → String → Option Bool)
    (filter event : GoMap) : Prop :=
  (∀ l, asList (filter.lookup "event_types") = some l → l ≠ [] →
    GoVal.vstr (getStrD event "event_type") ∈ l)
  ∧ (∀ b, asBool (filter.lookup "is_from_me") = some b →
    b = getBoolD event "is_from_me")
  ∧ (∀ l, asList (filter.lookup "message_types") = some l → l ≠ [] →
    GoVal.vstr (getStrD event "message_type") ∈ l)
  ∧ (∀ l, asList (filter.lookup "from_jids") = some l → l ≠ [] →
    GoVal.vstr (getStrD event "from") ∈ l)
  ∧ (∀ l, asList (filter.lookup "chat_jids") = some l → l ≠ [] →
    GoVal.vstr (getStrD event "chat") ∈ l)
  ∧ (∀ b, asBool (filter.lookup "is_group") = some b →
    b = getBoolD event "is_group")
  ∧ (∀ l, asList (filter.lookup "group_jids") = some l → l ≠ [] →
    getBoolD event "is_group" = true ∧ GoVal.vstr (getStrD event "chat") ∈ l)
  ∧ (∀ b, asBool (filter.lookup "has_media") = some b → b = eventHasMedia event)
  ∧ (∀ b, asBool (filter.lookup "has_quoted_message") = some b →
    b = eventHasQuoted event)
  ∧ (∀ l, asList (filter.lookup "text_contains") = some l → l ≠ [] →
    ∃ kw, GoVal.vstr kw ∈ l ∧
      goStrContains (goToLower (getStrD event "text_content")) (goToLower kw) = true)
  ∧ (∀ r, asStr (filter.lookup "text_regex") = some r → r ≠ "" →
    re r (getStrD event "text_content") = some true)

/-- C5.  For every regex engine, event, and handler whose `event_filter`
entry is the map `filter`, `matchesFilter` returns true exactly when every
present clause of the filter is satisfied in the §4.2 sense. -/
theorem c5_matchesFilter_iff_clauses (re : String → String → Option Bool)
    (handler event filter : GoMap)
    (hf : asMap (mlookup handler "event_filter") = some filter) :
    matchesFilter re handler event = true ↔ FilterSat re filter event := by
  unfold matchesFilter FilterSat
  rw [hf]
  simp only [Bool.and_eq_true, and_assoc]
  exact and_congr (listClause_iff _ _)
    (and_congr (boolClause_iff _ _)
      (and_congr (listClause_iff _ _)
        (and_congr (listClause_iff _ _)
          (and_congr (listClause_iff _ _)
            (and_congr (boolClause_iff _ _)
              (and_congr (groupClause_iff _ _ _)
                (and_congr (boolClause_iff _ (eventHasMedia event))
                  (and_congr (boolClause_iff _ (eventHasQuoted event))
                    (and_congr (textContainsClause_iff _ _)
                      (textRegexClause_iff re _ _))))))))))

/-- C5 witness: the scenario filter and event instantiate the clause
equivalence. -/
theorem c5_witness :
    matchesFilter reNone c3Handler c3Event = true ↔
      FilterSat reNone
        [("event_types", .vlist [.vstr "message"]),
         ("is_from_me", .vbool false),
         ("text_contains", .vlist [.vstr "hello"])] c3Event :=
  c5_matchesFilter_iff_clauses reNone c3Handler c3Event _ (by rfl)

/-!
C8: semantics of `substituteValue`.  A string is a whole-value event
reference exactly when its character sequence decomposes as
`\x7bevent.` ++ field ++ `\x7d`.
-/

theorem isEventRefString_of_decomp (s f : String)
    (h : s.data = "\x7bevent.".data ++ f.data ++ ['\x7d']) :
    isEventRefString s = true := by
  unfold isEventRefString
  rw [h]
  refine (Bool.and_eq_true _ _).mpr ⟨(Bool.and_eq_true _ _).mpr ⟨?_, ?_⟩, ?_⟩
  · have h7l : ("\x7bevent.".data).length = 7 := rfl
    simp only [List.length_append, h7l, List.length_singleton, decide_eq_true_eq]
    omega
  · have h7 : 7 = ("\x7bevent.".data).length := rfl
    rw [List.append_assoc, h7, List.take_left]
    simp
  · rw [List.getLast?_concat]
    simp

theorem eventRefField_of_decomp (s f : String)
    (h : s.data = "\x7bevent.".data ++ f.data ++ ['\x7d']) :
    eventRefField s = f := by
  unfold eventRefField
  rw [h]
  have h7 : 7 = ("\x7bevent.".data).length := rfl
  rw [List.append_assoc, h7, List.drop_left, List.dropLast_concat]

theorem decomp_of_isEventRefString (s : String) (h : isEventRefString s = true) :
    s.data = "\x7bevent.".data ++ (eventRefField s).data ++ ['\x7d'] := by
  unfold isEventRefString at h
  rw [Bool.and_eq_true, Bool.and_eq_true] at h
  obtain ⟨⟨h1, h2⟩, h3⟩ := h
  have hlen : s.data.length > 7 := of_decide_eq_true h1
  have htake : s.data.take 7 = "\x7bevent.".data := beq_iff_eq.mp h2
  have hlast : s.data.getLast? = some '\x7d' := beq_iff_eq.mp h3
  have hD : s.data.drop 7 ≠ [] := by
    rw [← List.length_pos, List.length_drop]
    omega
  have hsplit : s.data.take 7 ++ s.data.drop 7 = s.data := List.take_append_drop 7 s.data
  have hlastD : (s.data.drop 7).getLast? = some '\x7d' := by
    rw [← hsplit, List.getLast?_append_of_ne_nil _ hD] at hlast
    exact hlast
  have hDeq : s.data.drop 7 = (s.data.drop 7).dropLast ++ ['\x7d'] := by
    have hchain := List.dropLast_append_getLast hD
    have hg : (s.data.drop 7).getLast hD = '\x7d' := by
      have := List.getLast?_eq_getLast (s.data.drop 7) hD
      rw [this] at hlastD
      exact Option.some.inj hlastD
    rw [← hg]
    exact hchain.symm
  have hfield : (eventRefField s).data = (s.data.drop 7).dropLast := rfl
  rw [hfield]
  calc s.data = s.data.take 7 ++ s.data.drop 7 := hsplit.symm
    _ = "\x7bevent.".data ++ s.data.drop 7 := by rw [htake]
    _ = "\x7bevent.".data ++ ((s.data.drop 7).dropLast ++ ['\x7d']) := by rw [← hDeq]
    _ = "\x7bevent.".data ++ (s.data.drop 7).dropLast ++ ['\x7d'] := by
      rw [List.append_assoc]

theorem substMapEntries_eq_map (kvs : List (String × GoVal)) (env : GoMap) :
    substMapEntries kvs env
      = kvs.map (fun kv => (kv.1, substituteValue kv.2 env)) := by
  induction kvs with
  | nil => rfl
  | cons kv rest ih =>
    rcases kv with ⟨k, v⟩
    simp [substMapEntries, ih]

theorem substListEntries_eq_map (xs : List GoVal) (env : GoMap) :
    substListEntries xs env = xs.map (fun x => substituteValue x env) := by
  induction xs with
  | nil => rfl
  | cons x rest ih => simp [substListEntries, ih]

/-- C8.  Substitution semantics: a string that is exactly
`\x7bevent.field\x7d` with `field` bound in the event context becomes that
binding's value; every other string — including partial interpolations,
whose character sequence admits no such decomposition — is unchanged;
substitution recurses elementwise into maps and lists; non-string scalars
are unchanged. -/
theorem c8_substitution_semantics (env : GoMap) :
    (∀ s f v, s.data = "\x7bevent.".data ++ f.data ++ ['\x7d'] →
       env.lookup f = some v → substituteValue (.vstr s) env = v)
    ∧ (∀ s f, s.data = "\x7bevent.".data ++ f.data ++ ['\x7d'] →
       env.lookup f = none → substituteValue (.vstr s) env = .vstr s)
    ∧ (∀ s, (¬ ∃ f : String, s.data = "\x7bevent.".data ++ f.data ++ ['\x7d']) →
       substituteValue (.vstr s) env = .vstr s)
    ∧ (∀ kvs, substituteValue (.vmap kvs) env
       = .vmap (kvs.map (fun kv => (kv.1, substituteValue kv.2 env))))
    ∧ (∀ xs, substituteValue (.vlist xs) env
       = .vlist (xs.map (fun x => substituteValue x env)))
    ∧ (∀ b, substituteValue (.vbool b) env = .vbool b)
    ∧ (∀ n, substituteValue (.vint n) env = .vint n)
    ∧ (∀ n, substituteValue (.vint64 n) env = .vint64 n)
    ∧ (∀ n, substituteValue (.vfloat n) env = .vfloat n)
    ∧ (∀ t, substituteValue (.vtimestr t) env = .vtimestr t)
    ∧ substituteValue .vnil env = .vnil := by
  have hstr : ∀ s, substituteValue (.vstr s) env
      = (if isEventRefString s then
           match env.lookup (eventRefField s) with
           | some fieldValue => fieldValue
           | none => .vstr s
         else .vstr s) := fun _ => rfl
  refine ⟨?_, ?_, ?_, ?_, ?_, fun _ => rfl, fun _ => rfl, fun _ => rfl,
    fun _ => rfl, fun _ => rfl, rfl⟩
  · intro s f v hdec hlook
    rw [hstr, isEventRefString_of_decomp s f hdec, eventRefField_of_decomp s f hdec,
      hlook]
    rfl
  · intro s f hdec hlook
    rw [hstr, isEventRefString_of_decomp s f hdec, eventRefField_of_decomp s f hdec,
      hlook]
    rfl
  · intro s hnone
    cases hb : isEventRefString s with
    | true =>
      exact absurd ⟨eventRefField s, decomp_of_isEventRefString s hb⟩ hnone
    | false =>
      rw [hstr, hb]
      rfl
  · intro kvs
    show GoVal.vmap (substMapEntries kvs env) = _
    rw [substMapEntries_eq_map]
  · intro xs
    show GoVal.vlist (substListEntries xs env) = _
    rw [substListEntries_eq_map]

/-- C8 witness: a whole-value reference is replaced, a partial
interpolation is left unchanged. -/
theorem c8_witness :
    substituteValue (.vstr "\x7bevent.from\x7d") [("from", .vstr "alice")]
      = .vstr "alice"
    ∧ substituteValue (.vstr "\x7bevent.from\x7d") [("chat", .vstr "c")]
      = .vstr "\x7bevent.from\x7d" :=
  ⟨(c8_substitution_semantics [("from", .vstr "alice")]).1
      "\x7bevent.from\x7d" "from" (.vstr "alice") (by decide) (by rfl),
   (c8_substitution_semantics [("chat", .vstr "c")]).2.1
      "\x7bevent.from\x7d" "from" (by decide) (by rfl)⟩

/-!
C4: priority ordering of `MatchEvent` over a loaded registry snapshot.
-/

theorem mlookup_mset_ne (m : GoMap) (k k2 : String) (v : GoVal)
    (h : (k2 == k) = false) : mlookup (mset m k v) k2 = mlookup m k2 := by
  simp [mlookup, mset, List.lookup, h]

theorem mlookup_msetOpt_ne (m : GoMap) (k k2 : String) (o : Option GoVal)
    (h : (k2 == k) = false) : mlookup (msetOpt m k o) k2 = mlookup m k2 := by
  cases o with
  | none => rfl
  | some v => simp [mlookup, msetOpt, List.lookup, h]

theorem rowToHandlerMap_priority (r : HandlerRow) :
    getPriority (rowToHandlerMap r) = r.priority := by
  unfold getPriority rowToHandlerMap
  rw [mlookup_msetOpt_ne _ _ _ _ (by decide), mlookup_msetOpt_ne _ _ _ _ (by decide),
    mlookup_msetOpt_ne _ _ _ _ (by decide), mlookup_msetOpt_ne _ _ _ _ (by decide)]
  by_cases hcb : r.circuit_breaker_enabled == 1
  · rw [if_pos hcb]
    rw [mlookup_msetOpt_ne _ _ _ _ (by decide), mlookup_msetOpt_ne _ _ _ _ (by decide),
      mlookup_mset_ne _ _ _ _ (by decide), mlookup_msetOpt_ne _ _ _ _ (by decide),
      mlookup_msetOpt_ne _ _ _ _ (by decide), mlookup_msetOpt_ne _ _ _ _ (by decide),
      mlookup_msetOpt_ne _ _ _ _ (by decide), mlookup_msetOpt_ne _ _ _ _ (by decide),
      mlookup_msetOpt_ne _ _ _ _ (by decide)]
    rfl
  · rw [if_neg hcb]
    rw [mlookup_msetOpt_ne _ _ _ _ (by decide), mlookup_msetOpt_ne _ _ _ _ (by decide),
      mlookup_msetOpt_ne _ _ _ _ (by decide), mlookup_msetOpt_ne _ _ _ _ (by decide),
      mlookup_msetOpt_ne _ _ _ _ (by decide), mlookup_msetOpt_ne _ _ _ _ (by decide)]
    rfl

theorem rowToHandlerMap_id (r : HandlerRow) :
    getStrD (rowToHandlerMap r) "handler_id" = r.handler_id := by
  unfold getStrD rowToHandlerMap
  rw [mlookup_msetOpt_ne _ _ _ _ (by decide), mlookup_msetOpt_ne _ _ _ _ (by decide),
    mlookup_msetOpt_ne _ _ _ _ (by decide), mlookup_msetOpt_ne _ _ _ _ (by decide)]
  by_cases hcb : r.circuit_breaker_enabled == 1
  · rw [if_pos hcb]
    rw [mlookup_msetOpt_ne _ _ _ _ (by decide), mlookup_msetOpt_ne _ _ _ _ (by decide),
      mlookup_mset_ne _ _ _ _ (by decide), mlookup_msetOpt_ne _ _ _ _ (by decide),
      mlookup_msetOpt_ne _ _ _ _ (by decide), mlookup_msetOpt_ne _ _ _ _ (by decide),
      mlookup_msetOpt_ne _ _ _ _ (by decide), mlookup_msetOpt_ne _ _ _ _ (by decide),
      mlookup_msetOpt_ne _ _ _ _ (by decide)]
    rfl
  · rw [if_neg hcb]
    rw [mlookup_msetOpt_ne _ _ _ _ (by decide), mlookup_msetOpt_ne _ _ _ _ (by decide),
      mlookup_msetOpt_ne _ _ _ _ (by decide), mlookup_msetOpt_ne _ _ _ _ (by decide),
      mlookup_msetOpt_ne _ _ _ _ (by decide), mlookup_msetOpt_ne _ _ _ _ (by decide)]
    rfl

theorem rowToSummaryMap_id (r : HandlerRow) :
    getStrD (rowToSummaryMap r) "handler_id" = r.handler_id := by
  unfold getStrD rowToSummaryMap
  rw [mlookup_msetOpt_ne _ _ _ _ (by decide), mlookup_msetOpt_ne _ _ _ _ (by decide),
    mlookup_msetOpt_ne _ _ _ _ (by decide)]
  rfl

theorem lookup_of_mem_nodup {β : Type} (l : List (String × β)) (k : String)
    (v : β) (hmem : (k, v) ∈ l) (hnd : (l.map Prod.fst).Nodup) :
    l.lookup k = some v := by
  induction l with
  | nil => cases hmem
  | cons p rest ih =>
    rcases p with ⟨k0, v0⟩
    rw [List.map_cons, List.nodup_cons] at hnd
    rcases List.mem_cons.mp hmem with heq | hmem2
    · cases heq
      simp [List.lookup]
    · have hk : k ≠ k0 := by
        intro hkk
        subst hkk
        exact hnd.1 (List.mem_map.mpr ⟨(k, v), hmem2, rfl⟩)
      have hb : (k == k0) = false := beq_eq_false_iff_ne.mpr hk
      simp only [List.lookup, hb]
      exact ih hmem2 hnd.2

/-- Strict two-part key: higher priority first, lexically smaller
handler_id first among equal priorities. -/
def rowStrictOrder (a b : HandlerRow) : Prop :=
  b.priority < a.priority ∨ (a.priority = b.priority ∧ a.handler_id < b.handler_id)

theorem sortedRows_pairwise (db : Database)
    (hkeys : ∀ p ∈ db.handlers, p.1 = p.2.handler_id)
    (hnodup : (db.handlers.map Prod.fst).Nodup) :
    (((db.handlers.map Prod.snd).filter
      (fun r => r.enabled == 1)).insertionSort rowOrder).Pairwise rowStrictOrder := by
  have hsorted := List.sorted_insertionSort rowOrder
    ((db.handlers.map Prod.snd).filter (fun r => r.enabled == 1))
  have hids : ((db.handlers.map Prod.snd).map (fun r => r.handler_id)).Nodup := by
    have : (db.handlers.map Prod.snd).map (fun r => r.handler_id)
        = db.handlers.map Prod.fst := by
      rw [List.map_map]
      exact (List.map_congr_left (fun p hp => (hkeys p hp).symm))
    rw [this]
    exact hnodup
  have hidsf : (((db.handlers.map Prod.snd).filter
      (fun r => r.enabled == 1)).map (fun r => r.handler_id)).Nodup :=
    List.Nodup.sublist (List.Sublist.map _ (List.filter_sublist _)) hids
  have hidss : ((((db.handlers.map Prod.snd).filter
      (fun r => r.enabled == 1)).insertionSort rowOrder).map
        (fun r => r.handler_id)).Nodup :=
    ((List.perm_insertionSort rowOrder _).map _).nodup_iff.mpr hidsf
  have hne : (((db.handlers.map Prod.snd).filter
      (fun r => r.enabled == 1)).insertionSort rowOrder).Pairwise
        (fun a b => a.handler_id ≠ b.handler_id) :=
    List.pairwise_map.mp hidss
  have hcomb := List.Pairwise.and hsorted hne
  refine hcomb.imp ?_
  rintro a b ⟨hord, hne2⟩
  rcases hord with hlt | ⟨heq, hle⟩
  · exact Or.inl hlt
  · exact Or.inr ⟨heq, lt_of_le_of_ne hle hne2⟩

theorem filterMap_eq_map_of_forall {α β : Type} (l : List α) (f : α → Option β)
    (g : α → β) (h : ∀ x ∈ l, f x = some (g x)) : l.filterMap f = l.map g := by
  induction l with
  | nil => rfl
  | cons x rest ih =>
    rw [List.filterMap_cons, h x (List.mem_cons_self x rest), List.map_cons,
      ih (fun y hy => h y (List.mem_cons_of_mem x hy))]

theorem LoadHandlers_eq (db : Database)
    (hkeys : ∀ p ∈ db.handlers, p.1 = p.2.handler_id)
    (hnodup : (db.handlers.map Prod.fst).Nodup) :
    LoadHandlers db = (((db.handlers.map Prod.snd).filter
      (fun r => r.enabled == 1)).insertionSort rowOrder).map rowToHandlerMap := by
  unfold LoadHandlers
  have hstep : dbListHandlers db true
      = (((db.handlers.map Prod.snd).filter
          (fun r => r.enabled == 1)).insertionSort rowOrder).map rowToSummaryMap := rfl
  rw [hstep, List.filterMap_map]
  apply filterMap_eq_map_of_forall
  intro r hr
  have hmemf : r ∈ (db.handlers.map Prod.snd).filter (fun r => r.enabled == 1) :=
    ((List.perm_insertionSort rowOrder _).mem_iff).mp hr
  have hmem : r ∈ db.handlers.map Prod.snd := (List.mem_filter.mp hmemf).1
  rcases List.mem_map.mp hmem with ⟨p, hp, hpr⟩
  have hkey : p.1 = r.handler_id := by rw [hkeys p hp, hpr]
  have hpair : (r.handler_id, r) ∈ db.handlers := by
    have : p = (r.handler_id, r) := by
      rcases p with ⟨k, v⟩
      simp only at hpr hkey
      rw [hkey, hpr]
    rw [← this]
    exact hp
  show dbGetHandler db (getStrD (rowToSummaryMap r) "handler_id")
    = some (rowToHandlerMap r)
  rw [rowToSummaryMap_id]
  unfold dbGetHandler
  rw [lookup_of_mem_nodup _ _ _ hpair hnodup]
  rfl

theorem matchLoop_sublist (re : String → String → Option Bool) (event : GoMap)
    (now : Nat) (hs : List GoMap) (rl : RateLimits) :
    List.Sublist (matchLoop re event now hs rl).1 hs := by
  induction hs generalizing rl with
  | nil => simp [matchLoop]
  | cons handler rest ih =>
    unfold matchLoop
    dsimp only
    repeat' split
    all_goals first
      | exact (ih _).cons₂ handler
      | exact (ih _).cons handler

theorem bubbleAux_of_sorted (a : GoMap) (l : List GoMap)
    (h : (a :: l).Pairwise (fun x y => getPriority y ≤ getPriority x)) :
    bubbleAux a l = a :: l := by
  induction l generalizing a with
  | nil => rfl
  | cons b rest ih =>
    rw [List.pairwise_cons] at h
    rcases h with ⟨ha, htail⟩
    have hab : ¬ (getPriority a < getPriority b) :=
      not_lt.mpr (ha b (List.mem_cons_self b rest))
    show (if getPriority a < getPriority b then b :: bubbleAux a rest
      else a :: bubbleAux b rest) = a :: b :: rest
    rw [if_neg hab, ih b htail]

theorem bubblePass_of_sorted (l : List GoMap)
    (h : l.Pairwise (fun a b => getPriority b ≤ getPriority a)) :
    bubblePass l = l := by
  cases l with
  | nil => rfl
  | cons a rest => exact bubbleAux_of_sorted a rest h

theorem sortHandlersByPriority_of_sorted (l : List GoMap)
    (h : l.Pairwise (fun a b => getPriority b ≤ getPriority a)) :
    sortHandlersByPriority l = l :=
  Function.iterate_fixed (bubblePass_of_sorted l h) (l.length - 1)

/-- Output order key claimed in the spec: strictly descending priority,
with handler_id strictly ascending among equal priorities. -/
def handlerMapOrder (a b : GoMap) : Prop :=
  getPriority b < getPriority a ∨
    (getPriority a = getPriority b ∧
      getStrD a "handler_id" < getStrD b "handler_id")

/-- C4.  Over any store whose association keys are the rows' handler_ids
(unique, as the primary key guarantees), the list `MatchEvent` returns
for the loaded registry snapshot is pairwise ordered by descending
priority with equal priorities in ascending handler_id order; the
embedding is a pure function of the snapshot, event, rate-limit state and
clock, so the order is deterministic. -/
theorem c4_match_event_priority_order (re : String → String → Option Bool)
    (db : Database) (rl : RateLimits) (event : GoMap) (now : Nat)
    (hkeys : ∀ p ∈ db.handlers, p.1 = p.2.handler_id)
    (hnodup : (db.handlers.map Prod.fst).Nodup) :
    (MatchEvent re (LoadHandlers db) rl event now).1.Pairwise handlerMapOrder := by
  have hreg : (LoadHandlers db).Pairwise handlerMapOrder := by
    rw [LoadHandlers_eq db hkeys hnodup]
    apply List.pairwise_map.mpr
    apply (sortedRows_pairwise db hkeys hnodup).imp
    intro a b hab
    unfold handlerMapOrder
    rw [rowToHandlerMap_priority, rowToHandlerMap_priority,
      rowToHandlerMap_id, rowToHandlerMap_id]
    exact hab
  have hmatched : (matchLoop re event now (LoadHandlers db) rl).1.Pairwise
      handlerMapOrder :=
    List.Pairwise.sublist (matchLoop_sublist re event now (LoadHandlers db) rl) hreg
  have hdesc : (matchLoop re event now (LoadHandlers db) rl).1.Pairwise
      (fun a b => getPriority b ≤ getPriority a) := by
    apply hmatched.imp
    intro a b hab
    rcases hab with hlt | ⟨heq, _⟩
    · exact le_of_lt hlt
    · exact le_of_eq heq.symm
  show (MatchEvent re (LoadHandlers db) rl event now).1.Pairwise handlerMapOrder
  have hME : (MatchEvent re (LoadHandlers db) rl event now).1
      = sortHandlersByPriority (matchLoop re event now (LoadHandlers db) rl).1 := rfl
  rw [hME, sortHandlersByPriority_of_sorted _ hdesc]
  exact hmatched

/-- A minimal enabled handler row with the given id and priority, an
everything-matches filter, and the breaker disabled. -/
def c4Row (id : String) (prio : Int) : HandlerRow :=
  { handler_id := id
    description := none
    event_filter := .vmap []
    action := .vmap [("type", .vstr "actions"), ("actions", .vlist [])]
    enabled := 1
    priority := prio
    max_executions_per_minute := none
    max_executions_per_hour := none
    max_executions_per_sender_per_hour := none
    cooldown_seconds := none
    timeout_seconds := some 30
    circuit_breaker_enabled := 0
    circuit_breaker_threshold := none
    circuit_breaker_reset_seconds := none
    created_at := 0
    updated_at := 0
    execution_count := 0
    last_executed := none
    last_error := none
    last_error_time := none
    total_errors := 0
    circuit_breaker_state := some "closed" }

def c4Db : Database :=
  { handlers := [("a", c4Row "a" 5), ("b", c4Row "b" 1),
                 ("c", c4Row "c" 5), ("d", c4Row "d" 3)]
    executions := [] }

/-- C4 witness: four matching handlers with priorities [5, 1, 5, 3] come
back ordered [5, 5, 3, 1], with the two priority-5 handlers in handler_id
order ("a" before "c"). -/
theorem c4_witness :
    (MatchEvent reNone (LoadHandlers c4Db) [] c3Event 5000).1.Pairwise handlerMapOrder
    ∧ (MatchEvent reNone (LoadHandlers c4Db) [] c3Event 5000).1.map getPriority
      = [5, 5, 3, 1]
    ∧ (MatchEvent reNone (LoadHandlers c4Db) [] c3Event 5000).1.map
        (fun h => getStrD h "handler_id") = ["a", "c", "d", "b"] :=
  ⟨c4_match_event_priority_order reNone c4Db [] c3Event 5000 (by decide) (by decide),
   by rfl, by rfl⟩

/-!
C9: validation and atomicity of `handleRegisterHandler`.
-/

/-- The claim's failure condition: `handler_id` absent, empty or not a
string, or `event_filter` absent, or `action` absent (a missing data map
has all three absent). -/
def regInvalid (inputData : Option GoMap) : Prop :=
  match inputData with
  | none => True
  | some d =>
    (∀ s, d.lookup "handler_id" = some (GoVal.vstr s) → s = "")
    ∨ (d.lookup "event_filter") = none
    ∨ (d.lookup "action") = none

theorem asStr_none_no_vstr {o : Option GoVal} (h : asStr o = none) :
    ∀ s, o = some (GoVal.vstr s) → s = "" := by
  intro s hs
  rw [hs] at h
  simp [asStr] at h

theorem asStr_some_inv {o : Option GoVal} {s : String} (h : asStr o = some s) :
    o = some (GoVal.vstr s) := by
  match o, h with
  | some (GoVal.vstr s0), h =>
    have : s0 = s := by simpa [asStr] using h
    rw [this]

/-- C9.  A register_handler request fails exactly when `handler_id` is
absent, empty or not a string, or `event_filter` or `action` is absent; on
failure the handler store is untouched; on success the stored record is
the input with `enabled` defaulted to true, `priority` to 0 and
`timeout_seconds` to 30 when absent (present values are kept). -/
theorem c9_register_validation_and_defaults (db : Database)
    (inputData : Option GoMap) (now : Nat) :
    ((handleRegisterHandler db inputData now).1.success = false ↔ regInvalid inputData)
    ∧ (regInvalid inputData → (handleRegisterHandler db inputData now).2 = db)
    ∧ (∀ d, inputData = some d → ¬ regInvalid inputData →
        (handleRegisterHandler db inputData now).2
          = dbSaveHandler db (applyRegisterDefaults d) now
        ∧ (applyRegisterDefaults d).lookup "enabled"
          = some ((d.lookup "enabled").getD (.vbool true))
        ∧ (applyRegisterDefaults d).lookup "priority"
          = some ((d.lookup "priority").getD (.vint 0))
        ∧ (applyRegisterDefaults d).lookup "timeout_seconds"
          = some ((d.lookup "timeout_seconds").getD (.vint 30))) := by
  have hdefaults : ∀ d : GoMap,
      (applyRegisterDefaults d).lookup "enabled"
        = some ((d.lookup "enabled").getD (.vbool true))
      ∧ (applyRegisterDefaults d).lookup "priority"
        = some ((d.lookup "priority").getD (.vint 0))
      ∧ (applyRegisterDefaults d).lookup "timeout_seconds"
        = some ((d.lookup "timeout_seconds").getD (.vint 30)) := by
    intro d
    cases he : d.lookup "enabled" <;> cases hp : d.lookup "priority" <;>
      cases ht : d.lookup "timeout_seconds" <;>
      simp [applyRegisterDefaults, mset, List.lookup, he, hp, ht]
  cases inputData with
  | none =>
    refine ⟨by simp [handleRegisterHandler, regInvalid], fun _ => rfl, ?_⟩
    intro d hd
    exact absurd hd (by simp)
  | some d =>
    cases hid : asStr (d.lookup "handler_id") with
    | none =>
      have hinv : regInvalid (some d) := Or.inl (asStr_none_no_vstr hid)
      refine ⟨?_, fun _ => ?_, ?_⟩
      · simp only [handleRegisterHandler, hid]
        exact iff_of_true (by trivial) hinv
      · simp only [handleRegisterHandler, hid]
      · intro d2 hd2 hninv
        exact absurd hinv hninv
    | some handlerID =>
      have hlook : d.lookup "handler_id" = some (GoVal.vstr handlerID) :=
        asStr_some_inv hid
      by_cases hempty : handlerID = ""
      · have hinv : regInvalid (some d) := by
          refine Or.inl ?_
          intro s hs
          rw [hlook] at hs
          cases hs
          exact hempty
        subst hempty
        refine ⟨?_, fun _ => ?_, ?_⟩
        · simp only [handleRegisterHandler, hid]
          exact iff_of_true (by trivial) hinv
        · simp only [handleRegisterHandler, hid]
          rfl
        · intro d2 hd2 hninv
          exact absurd hinv hninv
      · have hbeq : (handlerID == "") = false := beq_eq_false_iff_ne.mpr hempty
        by_cases hef : (d.lookup "event_filter").isNone
        · have hinv : regInvalid (some d) :=
            Or.inr (Or.inl (Option.isNone_iff_eq_none.mp hef))
          refine ⟨?_, fun _ => ?_, ?_⟩
          · simp only [handleRegisterHandler, hid, hbeq, hef]
            exact iff_of_true (by trivial) hinv
          · simp only [handleRegisterHandler, hid, hbeq, hef]
            rfl
          · intro d2 hd2 hninv
            exact absurd hinv hninv
        · by_cases hac : (d.lookup "action").isNone
          · have hinv : regInvalid (some d) :=
              Or.inr (Or.inr (Option.isNone_iff_eq_none.mp hac))
            refine ⟨?_, fun _ => ?_, ?_⟩
            · simp only [handleRegisterHandler, hid, hbeq, hef, hac]
              exact iff_of_true (by trivial) hinv
            · simp only [handleRegisterHandler, hid, hbeq, hef, hac]
              rfl
            · intro d2 hd2 hninv
              exact absurd hinv hninv
          · have hninv : ¬ regInvalid (some d) := by
              intro hinv
              rcases hinv with h1 | h2 | h3
              · exact hempty (h1 handlerID hlook)
              · rw [h2] at hef
                exact hef rfl
              · rw [h3] at hac
                exact hac rfl
            refine ⟨?_, fun hinv => absurd hinv hninv, ?_⟩
            · simp only [handleRegisterHandler, hid, hbeq, hef, hac]
              constructor
              · intro hfalse
                cases hfalse
              · intro hinv
                exact absurd hinv hninv
            · intro d2 hd2 _
              cases hd2
              refine ⟨?_, hdefaults d⟩
              simp only [handleRegisterHandler, hid, hbeq, hef, hac]
              rfl

def c9Data : GoMap :=
  [("handler_id", .vstr "w9"),
   ("event_filter", .vmap [("event_types", .vlist [.vstr "message"])]),
   ("action", .vmap [("type", .vstr "actions"), ("actions", .vlist [])])]

def c9Db : Database := { handlers := [], executions := [] }

/-- C9 witness: a valid registration with `enabled`, `priority` and
`timeout_seconds` absent saves the defaulted record. -/
theorem c9_witness :
    (handleRegisterHandler c9Db (some c9Data) 42).2
      = dbSaveHandler c9Db (applyRegisterDefaults c9Data) 42
    ∧ (applyRegisterDefaults c9Data).lookup "enabled" = some (.vbool true)
    ∧ (applyRegisterDefaults c9Data).lookup "priority" = some (.vint 0)
    ∧ (applyRegisterDefaults c9Data).lookup "timeout_seconds" = some (.vint 30) := by
  have hninv : ¬ regInvalid (some c9Data) := by
    intro h
    rcases h with h1 | h2 | h3
    · have hw := h1 "w9" (by rfl)
      exact absurd hw (by decide)
    · exact Option.noConfusion
        (show (some (GoVal.vmap [("event_types", GoVal.vlist [GoVal.vstr "message"])])
          : Option GoVal) = none from h2)
    · exact Option.noConfusion
        (show (some (GoVal.vmap [("type", GoVal.vstr "actions"),
          ("actions", GoVal.vlist [])]) : Option GoVal) = none from h3)
  have h := (c9_register_validation_and_defaults c9Db (some c9Data) 42).2.2
    c9Data rfl hninv
  exact ⟨h.1, h.2.1, h.2.2.1, h.2.2.2⟩
